import Mathlib

/-!
Verification development for the MONet optical-network capacity-planning
simulator core.  The definitions below are a shallow embedding of the C++
sources under `src/`:

* `Fiber`   — `src/core/fiber.cpp` (band → core → mode → slot occupancy map)
* `Link`    — `src/core/link.cpp`
* `Network` — `src/core/network.cpp` (graph, adjacency, slot façade, paths)
* `BitRate`/`ModulationFormat` — `src/core/bitrate.cpp`, `modulation_format.cpp`
* `Controller.assignConnections` — `src/sim/controller.cpp`
* the first-fit 100G reference allocator — `test/test_simulator.cpp`

Modelling conventions:
* C++ `int` is modelled as `Int` (no arithmetic near overflow occurs in the
  claims; the single overflow-sensitive constant `INT_MAX = 2147483647` is
  written out explicitly where the source uses it).
* C++ `double`/`float` lengths and capacities are modelled as `Rat`; every
  numeric fact proved below involves only values and operations that are
  exact in binary floating point at the scale used by the sources.
* C++ exceptions are modelled by `Except Err` (or, where a partially mutated
  state escapes through an exception, by an `Option Err × State` pair).  The
  constructors of `Err` are named after the C++ exception classes:
  `std::invalid_argument`, `std::out_of_range`, `std::runtime_error`, and the
  node-attribute `NotSet` exception.  The specification's `Conflict` kind
  corresponds to `std::runtime_error` in the sources.
* `std::map<Band, …>` is modelled as an association list with unique keys
  kept in the `Band` enumeration order (the order `std::map` sorts by);
  lookup takes the first matching key.
-/

set_option maxRecDepth 16384

deriving instance DecidableEq for Except

namespace MONet

/-- Optical bands, `fns::Band` from `util/utils.hpp` (enumeration order is the
`std::map` key order). -/
inductive Band
  | O | E | S | C | L | U
deriving DecidableEq, Repr

/-- Error kinds; constructors named after the C++ exception classes thrown by
the sources. -/
inductive Err
  | invalidArgument
  | outOfRange
  | runtimeError
  | notSet
deriving DecidableEq, Repr

/-! ### Fiber (`src/core/fiber.cpp`)

`resources` models `std::map<fns::Band, std::vector<std::vector<std::vector<int>>>>`:
per band a `[core][mode][slot]` matrix of owner ids. -/

structure Fiber where
  resources : List (Band × List (List (List Int)))
  dedicatedToP2P : Bool
deriving Repr, DecidableEq

instance : Inhabited Fiber := ⟨⟨[], false⟩⟩

namespace Fiber

/-- `resources.find(band)`: first entry with the given band key. -/
def findBand (f : Fiber) (b : Band) : Option (List (List (List Int))) :=
  (f.resources.find? (fun q => q.1 == b)).map (·.2)

/-- `Fiber::Fiber(int slots)`: SSMF, C band, 1 core, 1 mode, `slots` slots,
all initialised to the value-initialised `int`, i.e. `0`. -/
def ofSlots (slots : Int) : Except Err Fiber :=
  if slots < 1 then .error .invalidArgument
  else .ok ⟨[(Band.C, [[List.replicate slots.toNat 0]])], false⟩

/-- `Fiber::getNumberOfCores`: size of `resources.begin()->second` (the first
band's core count), `0` if no bands. -/
def getNumberOfCores (f : Fiber) : Nat :=
  match f.resources with
  | [] => 0
  | (_, m) :: _ => m.length

/-- `Fiber::getBands`. -/
def getBands (f : Fiber) : List Band :=
  f.resources.map (·.1)

/-- `Fiber::validateAux(core, band, mode, slotPos)`: band present else
`invalid_argument`; core/mode/slot indices bounds-checked else
`out_of_range`. -/
def validateAux (f : Fiber) (core : Int) (band : Band) (mode slotPos : Int) :
    Option Err :=
  match f.findBand band with
  | none => some .invalidArgument
  | some m =>
    if core < 0 ∨ (m.length : Int) ≤ core then some .outOfRange
    else if mode < 0 ∨ ((m.getD core.toNat []).length : Int) ≤ mode then
      some .outOfRange
    else if slotPos < 0 ∨
        (((m.getD core.toNat []).getD mode.toNat []).length : Int) ≤ slotPos then
      some .outOfRange
    else none

/-- `Fiber::getSlot`. -/
def getSlot (f : Fiber) (core : Int) (band : Band) (mode slotPos : Int) :
    Except Err Int :=
  match f.validateAux core band mode slotPos with
  | some e => .error e
  | none =>
      .ok ((((f.findBand band).getD []).getD core.toNat []).getD mode.toNat []
            |>.getD slotPos.toNat 0)

/-- The nested in-place update `M[core][mode][slotPos] = v` on one band's
matrix. -/
def updCell (M : List (List (List Int))) (core mode slotPos : Nat) (v : Int) :
    List (List (List Int)) :=
  M.set core ((M.getD core []).set mode
    (((M.getD core []).getD mode []).set slotPos v))

/-- The in-place write `resources[band][core][mode][slotPos] = v` (performed
by `Fiber::setSlot` after validation). -/
def writeSlot (f : Fiber) (band : Band) (core mode slotPos : Nat) (v : Int) :
    Fiber :=
  { f with resources := f.resources.map (fun q =>
      if q.1 == band then (q.1, updCell q.2 core mode slotPos v) else q) }

/-- `Fiber::setSlot(core, band, mode, slotPos, connectionId)`. -/
def setSlot (f : Fiber) (core : Int) (band : Band) (mode slotPos : Int)
    (connectionId : Int) : Except Err Fiber :=
  match f.validateAux core band mode slotPos with
  | some e => .error e
  | none => .ok (f.writeSlot band core.toNat mode.toNat slotPos.toNat connectionId)

/-- `Fiber::isActive`: any slot holds a value other than `0`. -/
def isActive (f : Fiber) : Bool :=
  f.resources.any (fun q => q.2.any (fun cm => cm.any (fun sl =>
    sl.any (fun s => s != 0))))

/-- `Fiber::setCores(coreConfig)`: validate the configuration
(`invalid_argument`), refuse when any slot of any band holds a nonzero value
(`runtime_error`), otherwise rebuild every band's matrix from the
configuration with all slots `0`. -/
def setCores (f : Fiber) (coreConfig : List (List Int)) : Except Err Fiber :=
  if coreConfig.isEmpty then .error .invalidArgument
  else if coreConfig.any (fun core => core.isEmpty) then .error .invalidArgument
  else if coreConfig.any (fun core => core.any (fun s => s < 1)) then
    .error .invalidArgument
  else if f.resources.any (fun q => q.2.any (fun cm => cm.any (fun sl =>
      sl.any (fun s => s != 0)))) then .error .runtimeError
  else
    .ok { f with resources := f.resources.map (fun q =>
      (q.1, coreConfig.map (fun modes =>
        modes.map (fun slots => List.replicate slots.toNat 0)))) }

/-- `Fiber::setModes(core, band, slotsPerMode)`: core index checked against
`getNumberOfCores` (`out_of_range`), band must exist (`invalid_argument`),
configuration validated (`invalid_argument`), refuse when any slot of that
(core, band) holds a nonzero value (`runtime_error`), otherwise replace the
core's mode list with fresh all-zero slot arrays. -/
def setModes (f : Fiber) (core : Int) (band : Band) (slotsPerMode : List Int) :
    Except Err Fiber :=
  if core < 0 ∨ (f.getNumberOfCores : Int) ≤ core then .error .outOfRange
  else
    match f.findBand band with
    | none => .error .invalidArgument
    | some m =>
      if slotsPerMode.isEmpty then .error .invalidArgument
      else if slotsPerMode.any (fun s => s < 1) then .error .invalidArgument
      else if (m.getD core.toNat []).any (fun sl => sl.any (fun s => s != 0)) then
        .error .runtimeError
      else
        .ok { f with resources := f.resources.map (fun q =>
          if q.1 == band then
            (q.1, q.2.set core.toNat
              (slotsPerMode.map (fun s => List.replicate s.toNat 0)))
          else q) }

/-- `Fiber::resetFiber`: fill every slot of every band with `0`, keeping the
structure. -/
def resetFiber (f : Fiber) : Fiber :=
  { f with resources := f.resources.map (fun q =>
      (q.1, q.2.map (fun cm => cm.map (fun sl =>
        List.replicate sl.length 0)))) }

/-- Total variant of `Fiber::getNumberOfModes(core, band)` used by iteration
loops; the C++ getter throws on an absent band or out-of-range core, which
cannot occur at the call sites modelled below (indices are drawn from
`getNumberOfCores`/`getBands` under the all-bands-share-cores invariant). -/
def numberOfModesD (f : Fiber) (core : Nat) (band : Band) : Nat :=
  (((f.findBand band).getD []).getD core []).length

/-- Total variant of `Fiber::getNumberOfSlots(core, band, mode)`;
see `numberOfModesD` for the totalisation convention. -/
def numberOfSlotsD (f : Fiber) (core : Nat) (band : Band) (mode : Nat) : Nat :=
  ((((f.findBand band).getD []).getD core []).getD mode []).length

/-- Total variant of `Fiber::getSlot` for in-range iteration;
see `numberOfModesD` for the totalisation convention. -/
def getSlotD (f : Fiber) (core : Nat) (band : Band) (mode slotPos : Nat) : Int :=
  ((((f.findBand band).getD []).getD core []).getD mode []).getD slotPos 0

/-- All stored slot cells hold `0` (the value written by construction,
`resetFiber`, and `unuseSlots`). -/
def allSlotsZero (f : Fiber) : Bool :=
  f.resources.all (fun q => q.2.all (fun cm => cm.all (fun sl =>
    sl.all (fun s => s == 0))))

/-- Decidable well-formedness of one addressable cell: band `b` is present,
core `c` and mode `m` are in range, and the slot array there has length
`cnt`. -/
def cellOkB (f : Fiber) (b : Band) (c m cnt : Nat) : Bool :=
  match f.findBand b with
  | none => false
  | some M =>
    decide (c < M.length) && decide (m < (M.getD c []).length) &&
      (((M.getD c []).getD m []).length == cnt)

end Fiber

/-! ### Node and Link (`src/core/node.cpp`, `src/core/link.cpp`)

Only the fields the claims depend on are modelled; the optional Node
attributes (label, coordinates, DC/IXP counts, …) are not referenced by any
claim. -/

structure Node where
  id : Int
  degree : Int := 0
deriving Repr, DecidableEq

instance : Inhabited Node := ⟨⟨-1, 0⟩⟩

structure Link where
  id : Int
  length : Rat
  src : Int := -1
  dst : Int := -1
  fibers : List Fiber
deriving Repr, DecidableEq

instance : Inhabited Link := ⟨⟨-1, 100, -1, -1, []⟩⟩

namespace Link

/-- The sequence of slot values visited by `Link::getUsagePercentage`:
for every fiber, band, core index below `getNumberOfCores` (first band's core
count), mode and slot of that cell.  This is the exact traversal order of the
nested loops in `link.cpp`. -/
def visitedSlotVals (link : Link) : List Int :=
  link.fibers.flatMap (fun fiber =>
    fiber.getBands.flatMap (fun band =>
      (List.range fiber.getNumberOfCores).flatMap (fun core =>
        (List.range (fiber.numberOfModesD core band)).flatMap (fun mode =>
          (List.range (fiber.numberOfSlotsD core band mode)).map (fun s =>
            fiber.getSlotD core band mode s)))))

/-- `Link::getUsagePercentage`: a slot counts as used when its stored value
differs from `-1`; returns `used/total * 100`, or `0` when no slots. -/
def getUsagePercentage (link : Link) : Rat :=
  if link.visitedSlotVals.length = 0 then 0
  else (((link.visitedSlotVals.filter (fun v => v != -1)).length : Rat) /
    (link.visitedSlotVals.length : Rat)) * 100

end Link

/-! ### Network (`src/core/network.cpp`)

Adjacency is the CSR-style layout of the source: `linksOut`/`linksIn` hold
link positions into `links`, segmented by the prefix-sum vectors
`nodesOut`/`nodesIn`.  (The C++ stores `shared_ptr<Link>` aliases of the
`links` entries; storing positions is observationally equivalent because the
pointers always alias `links[i]`.) -/

/-- A route is the sequence of link ids along a path (the C++ `Route` stores
`shared_ptr<Link>`; ids identify the same links through `Network.links`). -/
abbrev Route := List Int

abbrev Paths := List (List (List Route))

structure Network where
  nodeCounter : Int
  linkCounter : Int
  nodes : List Node
  links : List Link
  linksIn : List Int
  linksOut : List Int
  nodesIn : List Int
  nodesOut : List Int
  paths : Paths
  pathK : Int
deriving Repr, DecidableEq

namespace Network

/-- `Network::Network()`. -/
def init : Network :=
  { nodeCounter := 0, linkCounter := 0, nodes := [], links := [],
    linksIn := [], linksOut := [], nodesIn := [0], nodesOut := [0],
    paths := [], pathK := 0 }

/-- `Network::addNode`: the node id must equal the node counter
(`runtime_error` otherwise); appends and extends both prefix-sum vectors by
duplicating their last entry. -/
def addNode (net : Network) (node : Node) : Except Err Network :=
  if node.id ≠ net.nodeCounter then .error .runtimeError
  else .ok { net with
    nodeCounter := net.nodeCounter + 1,
    nodes := net.nodes ++ [node],
    nodesIn := net.nodesIn ++ [net.nodesIn.getLast?.getD 0],
    nodesOut := net.nodesOut ++ [net.nodesOut.getLast?.getD 0] }

/-- `Network::addLink`: the link id must equal the link counter
(`runtime_error` otherwise). -/
def addLink (net : Network) (link : Link) : Except Err Network :=
  if link.id ≠ net.linkCounter then .error .runtimeError
  else .ok { net with
    linkCounter := net.linkCounter + 1,
    links := net.links ++ [link] }

/-- `Network::connect(src, linkPos, dst)`: bounds checks (`runtime_error`),
then insert the link position at the start of the source's out-segment and
the destination's in-segment, bump the prefix sums after that node, and stamp
the link with its endpoints. -/
def connect (net : Network) (src linkPos dst : Int) : Except Err Network :=
  if src < 0 ∨ net.nodeCounter ≤ src then .error .runtimeError
  else if dst < 0 ∨ net.nodeCounter ≤ dst then .error .runtimeError
  else if linkPos < 0 ∨ net.linkCounter ≤ linkPos then .error .runtimeError
  else
    .ok { net with
      linksOut := net.linksOut.insertIdx (net.nodesOut.getD src.toNat 0).toNat
        linkPos,
      nodesOut := net.nodesOut.mapIdx (fun i v =>
        if src.toNat + 1 ≤ i then v + 1 else v),
      linksIn := net.linksIn.insertIdx (net.nodesIn.getD dst.toNat 0).toNat
        linkPos,
      nodesIn := net.nodesIn.mapIdx (fun i v =>
        if dst.toNat + 1 ≤ i then v + 1 else v),
      links := net.links.set linkPos.toNat
        ({ net.links.getD linkPos.toNat default with src := src, dst := dst }) }

/-- `Network::getNumberOfLinks` (returns the link counter field). -/
def getNumberOfLinks (net : Network) : Int := net.linkCounter

/-- The link stored at position `l` of the links vector. -/
def linkAt (net : Network) (l : Nat) : Link := net.links.getD l default

/-- The fiber stored at position `f` of link `l`. -/
def fiberAt (net : Network) (l f : Nat) : Fiber :=
  (net.linkAt l).fibers.getD f default

/-- Replace the fiber at position `f` of link `l` (the effect of mutating
that fiber in place through the shared `Link` pointer). -/
def putFiber (net : Network) (l f : Nat) (fib : Fiber) : Network :=
  let link' : Link :=
    { net.linkAt l with fibers := (net.linkAt l).fibers.set f fib }
  { net with links := net.links.set l link' }

/-- `Network::validateAux(idLink, fiber, core, mode, slotPos)` (the 5-argument
overload): link id bounds against the link counter, non-negativity of the
other indices. -/
def validateAux5 (net : Network) (idLink fiber core mode slotPos : Int) :
    Option Err :=
  if idLink < 0 then some .invalidArgument
  else if net.getNumberOfLinks ≤ idLink then some .outOfRange
  else if fiber < 0 then some .invalidArgument
  else if core < 0 then some .invalidArgument
  else if mode < 0 then some .invalidArgument
  else if slotPos < 0 then some .invalidArgument
  else none

/-- `Network::validateAux(idLink, fiber, core, mode, slotFrom, slotTo)`:
the 5-argument validation on `slotFrom`, then `slotTo ≤ slotFrom` is an
`invalid_argument`. -/
def validateAux6 (net : Network) (idLink fiber core mode slotFrom slotTo : Int) :
    Option Err :=
  match net.validateAux5 idLink fiber core mode slotFrom with
  | some e => some e
  | none => if slotTo ≤ slotFrom then some .invalidArgument else none

/-- One loop-body step of `Network::useSlots`/`unuseSlots`:
`getLink(idLink)` (`runtime_error` when the position is out of the links
vector), `getFiber(fiber)` (`out_of_range`), then `Fiber::setSlot`.  On
success the updated link is written back. -/
def setSlotAt (net : Network) (idLink fiber core : Int) (band : Band)
    (mode slotPos v : Int) : Except Err Network :=
  if idLink < 0 ∨ (net.links.length : Int) ≤ idLink then .error .runtimeError
  else if fiber < 0 ∨ ((net.linkAt idLink.toNat).fibers.length : Int) ≤ fiber then
    .error .outOfRange
  else
    match (net.fiberAt idLink.toNat fiber.toNat).setSlot core band mode
        slotPos v with
    | .error e => .error e
    | .ok fib' => .ok (net.putFiber idLink.toNat fiber.toNat fib')

/-- The `for (int i = slotFrom; i < slotTo; i++)` write loop.  Mutation is in
place in C++, so when an iteration throws, the writes of earlier iterations
persist: the result pairs the error (if any) with the state reached. -/
def slotLoop (idLink fiber core : Int) (band : Band) (mode : Int) (v : Int) :
    Network → Nat → Nat → Option Err × Network
  | net, _, 0 => (none, net)
  | net, i, n + 1 =>
    match net.setSlotAt idLink fiber core band mode (i : Int) v with
    | .error e => (some e, net)
    | .ok net' => slotLoop idLink fiber core band mode v net' (i + 1) n

/-- `Network::useSlots(idLink, fiber, core, band, mode, slotFrom, slotTo,
connectionId)`: validate, then mark the half-open range `[slotFrom, slotTo)`
with `connectionId` cell by cell. -/
def useSlots (net : Network) (idLink fiber core : Int) (band : Band)
    (mode slotFrom slotTo connectionId : Int) : Option Err × Network :=
  match net.validateAux6 idLink fiber core mode slotFrom slotTo with
  | some e => (some e, net)
  | none =>
    slotLoop idLink fiber core band mode connectionId net slotFrom.toNat
      (slotTo - slotFrom).toNat

/-- `Network::unuseSlots`: identical loop writing `false`, which converts to
the `int` value `0`. -/
def unuseSlots (net : Network) (idLink fiber core : Int) (band : Band)
    (mode slotFrom slotTo : Int) : Option Err × Network :=
  match net.validateAux6 idLink fiber core mode slotFrom slotTo with
  | some e => (some e, net)
  | none =>
    slotLoop idLink fiber core band mode 0 net slotFrom.toNat
      (slotTo - slotFrom).toNat

/-- `Network::isSlotUsed`: validate, then `getLink → getFiber → getSlot`. -/
def isSlotUsed (net : Network) (idLink fiber core : Int) (band : Band)
    (mode slotPos : Int) : Except Err Int :=
  match net.validateAux5 idLink fiber core mode slotPos with
  | some e => .error e
  | none =>
    if idLink < 0 ∨ (net.links.length : Int) ≤ idLink then .error .runtimeError
    else if fiber < 0 ∨ ((net.linkAt idLink.toNat).fibers.length : Int) ≤ fiber then
      .error .outOfRange
    else (net.fiberAt idLink.toNat fiber.toNat).getSlot core band mode slotPos

/-- Decidable well-formedness of one network slot cell: the link counter
agrees with the links vector (true of every network built through `addLink`),
positions `l`, `f` are in range, and the cell is addressable in the fiber
with slot count `cnt`. -/
def cellOkB (net : Network) (l f : Nat) (b : Band) (c m cnt : Nat) : Bool :=
  (net.linkCounter == (net.links.length : Int)) &&
    decide (l < net.links.length) &&
    decide (f < (net.linkAt l).fibers.length) &&
    (net.fiberAt l f).cellOkB b c m cnt

/-- The state produced by one successful in-place slot write: link `l`'s
fiber `f` gets `writeSlot` applied. -/
def netWrite (net : Network) (l f : Nat) (b : Band) (c m p : Nat) (v : Int) :
    Network :=
  net.putFiber l f ((net.fiberAt l f).writeSlot b c m p v)

end Network

/-! ### Shortest paths (`Network::dijkstra`, `Network::yenKShortestPaths`,
`Network::setPaths`)

`double` distances are `Rat`, with the `infinity` default of
`ShortestPathResult::totalLength` and of the `distances` vector modeled as
`none : Option Rat`.  The two `std::priority_queue`s compare only the key
(`lhs.first > rhs.first`); the order they yield among entries with *equal*
keys is unspecified by the C++ standard.  They are modeled as sorted lists
with the stable insertion `pqInsertBy` (an entry goes after existing entries
of equal key), which realises one legal heap behaviour; the concrete runs
below never hold two equal keys in a queue at once, so every legal heap
behaviour produces the same run. -/

/-- `Network::ShortestPathResult`; `empty()` is `linkPath.empty()`. -/
structure ShortestPathResult where
  nodePath : List Int
  linkPath : List Int
  totalLength : Option Rat
deriving Repr, DecidableEq

instance : Inhabited ShortestPathResult := ⟨⟨[], [], none⟩⟩

/-- Stable insertion into a key-sorted list: the new entry is placed before
the first entry with a strictly greater key. -/
def pqInsertBy {α : Type} (key : α → Rat) (e : α) : List α → List α
  | [] => [e]
  | x :: rest => if key e < key x then e :: x :: rest else x :: pqInsertBy key e rest

/-- Rational addition in kernel-computable form (`Rat.add` is
`@[irreducible]`); `ratAdd_eq_add` proves it equal to `+`. -/
def ratAdd (a b : Rat) : Rat :=
  mkRat (a.num * b.den + b.num * a.den) (a.den * b.den)

/-- Rational negation in kernel-computable form; equal to `Neg.neg` by
`ratNeg_eq_neg`. -/
def ratNeg (a : Rat) : Rat := mkRat (-a.num) a.den

/-- Rational subtraction in kernel-computable form; equal to `-` by
`ratSub_eq_sub`. -/
def ratSub (a b : Rat) : Rat := ratAdd a (ratNeg b)

/-- Rational absolute value in kernel-computable form; equal to `|·|` by
`ratAbs_eq_abs`. -/
def ratAbs (a : Rat) : Rat := mkRat (a.num.natAbs : Int) a.den

/-- `⌈p / q⌉` for integers with `q > 0`, by Euclidean arithmetic on `Nat`. -/
def intCeilDiv (p q : Int) : Int :=
  if 0 ≤ p then ((p.toNat + q.toNat - 1) / q.toNat : Nat)
  else -(((-p).toNat / q.toNat : Nat) : Int)

namespace Network

/-- The mutable state of `Network::dijkstra`: `distances` (`none` =
infinity), `previousNode`, `previousLink`, `visited`, and the priority
queue. -/
structure DijkstraState where
  dist : List (Option Rat)
  prevNode : List Int
  prevLink : List Int
  visited : List Bool
  pq : List (Rat × Int)
deriving Repr

/-- The inner `for (edgeIndex = nodesOut[u]; edgeIndex < nodesOut[u+1]; ...)`
relaxation loop of `Network::dijkstra`, iterated over the listed edge
indices. -/
def relaxEdges (net : Network) (dst : Int) (exL exN : List Int)
    (u : Int) (du : Rat) : List Nat → DijkstraState → DijkstraState
  | [], st => st
  | eIdx :: rest, st =>
    let linkId := net.linksOut.getD eIdx 0
    if linkId ∈ exL then relaxEdges net dst exL exN u du rest st
    else
      let v := (net.linkAt linkId.toNat).dst
      if v ∈ exN ∧ v ≠ dst then relaxEdges net dst exL exN u du rest st
      else
        let nd := ratAdd du (net.linkAt linkId.toNat).length
        let better :=
          match st.dist.getD v.toNat none with
          | none => true
          | some dv => decide (nd < dv)
        if better then
          relaxEdges net dst exL exN u du rest
            { st with
              dist := st.dist.set v.toNat (some nd),
              prevNode := st.prevNode.set v.toNat u,
              prevLink := st.prevLink.set v.toNat linkId,
              pq := pqInsertBy (fun q => q.1) (nd, v) st.pq }
        else relaxEdges net dst exL exN u du rest st

/-- The `while (!pq.empty())` loop of `Network::dijkstra`; `fuel` bounds the
number of queue pops (each pop consumes one of the finitely many pushed
entries, so sufficient fuel makes the recursion agree with the C++ loop). -/
def dijkstraLoop (net : Network) (dst : Int) (exL exN : List Int) :
    Nat → DijkstraState → DijkstraState
  | 0, st => st
  | fuel + 1, st =>
    match st.pq with
    | [] => st
    | (d, u) :: rest =>
      if st.visited.getD u.toNat false then
        dijkstraLoop net dst exL exN fuel { st with pq := rest }
      else if u ∈ exN then
        dijkstraLoop net dst exL exN fuel
          { st with visited := st.visited.set u.toNat true, pq := rest }
      else
        if u = dst then
          { st with visited := st.visited.set u.toNat true, pq := rest }
        else if (net.nodesOut.length : Int) ≤ u + 1 then
          dijkstraLoop net dst exL exN fuel
            { st with visited := st.visited.set u.toNat true, pq := rest }
        else
          let lo := (net.nodesOut.getD u.toNat 0).toNat
          let hi := (net.nodesOut.getD (u + 1).toNat 0).toNat
          dijkstraLoop net dst exL exN fuel
            (relaxEdges net dst exL exN u d (List.range' lo (hi - lo))
              { st with visited := st.visited.set u.toNat true, pq := rest })

/-- The backwards walk `for (current = dst; current != -1; current =
previousNode[current])` of `Network::dijkstra`, already in reversed
(source-to-destination) order. -/
def buildPath (prevNode prevLink : List Int) : Nat → Int → List Int × List Int
  | 0, _ => ([], [])
  | fuel + 1, cur =>
    if cur = -1 then ([], [])
    else
      let pr := buildPath prevNode prevLink fuel (prevNode.getD cur.toNat (-1))
      (pr.1 ++ [cur],
        if prevLink.getD cur.toNat (-1) ≠ -1 then
          pr.2 ++ [prevLink.getD cur.toNat (-1)]
        else pr.2)

/-- `Network::dijkstra(src, dst, excludedLinks, excludedNodes)`. -/
def dijkstra (net : Network) (src dst : Int) (exL exN : List Int) :
    ShortestPathResult :=
  if src < 0 ∨ net.nodeCounter ≤ src ∨ dst < 0 ∨ net.nodeCounter ≤ dst then
    default
  else if src ∈ exN ∨ dst ∈ exN then default
  else
    let n := net.nodeCounter.toNat
    let st0 : DijkstraState :=
      ⟨(List.replicate n (none : Option Rat)).set src.toNat (some 0),
        List.replicate n (-1), List.replicate n (-1),
        List.replicate n false, [(0, src)]⟩
    let stf := dijkstraLoop net dst exL exN (net.linksOut.length + n + 2) st0
    match stf.dist.getD dst.toNat none with
    | none => default
    | some dd =>
      let p := buildPath stf.prevNode stf.prevLink (n + 1) dst
      ⟨p.1, p.2, some dd⟩

/-- The spur loop `for (i = 0; i < previousPath.nodePath.size() - 1; ++i)` of
`Network::yenKShortestPaths`, threading the candidate queue and the
candidate link-path set. -/
def spurLoop (net : Network) (dst : Int) (kPaths : List ShortestPathResult)
    (prev : ShortestPathResult) (bestSet : List (List Int)) :
    List Nat → List (Rat × ShortestPathResult) → List (List Int) →
      List (Rat × ShortestPathResult) × List (List Int)
  | [], cands, candSet => (cands, candSet)
  | i :: rest, cands, candSet =>
    let spurNode := prev.nodePath.getD i 0
    let rootNodes := prev.nodePath.take (i + 1)
    let rootLinks := prev.linkPath.take i
    let removedLinks :=
      (kPaths.filter (fun p =>
        decide (i < p.nodePath.length) &&
          (p.nodePath.take (i + 1) == rootNodes) &&
          decide (i < p.linkPath.length))).map (fun p => p.linkPath.getD i 0)
    let excludedNodes := rootNodes.dropLast
    let spurPath := net.dijkstra spurNode dst removedLinks excludedNodes
    if spurPath.linkPath.isEmpty then
      spurLoop net dst kPaths prev bestSet rest cands candSet
    else
      let totalNodes := rootNodes ++ spurPath.nodePath.drop 1
      let totalLinks := rootLinks ++ spurPath.linkPath
      if totalLinks ∈ bestSet ∨ totalLinks ∈ candSet then
        spurLoop net dst kPaths prev bestSet rest cands candSet
      else
        let rootLength :=
          rootLinks.foldl (fun s lid => ratAdd s (net.linkAt lid.toNat).length) 0
        let total := ratAdd rootLength (spurPath.totalLength.getD 0)
        spurLoop net dst kPaths prev bestSet rest
          (pqInsertBy (fun q => q.1)
            (total, ⟨totalNodes, totalLinks, some total⟩) cands)
          (totalLinks :: candSet)

/-- The outer `for (pathCount = 1; pathCount < k; ++pathCount)` loop of
`Network::yenKShortestPaths`; `kPaths[pathCount - 1]` is always the list's
last element. -/
def yenOuter (net : Network) (dst : Int) :
    Nat → List ShortestPathResult → List (Rat × ShortestPathResult) →
      List (List Int) → List (List Int) → List ShortestPathResult
  | 0, kPaths, _, _, _ => kPaths
  | fuel + 1, kPaths, cands, bestSet, candSet =>
    let prev := kPaths.getLast?.getD default
    let p := spurLoop net dst kPaths prev bestSet
      (List.range (prev.nodePath.length - 1)) cands candSet
    match p.1 with
    | [] => kPaths
    | c :: restCands =>
      yenOuter net dst fuel (kPaths ++ [c.2]) restCands
        (c.2.linkPath :: bestSet) (p.2.erase c.2.linkPath)

/-- `Network::yenKShortestPaths(src, dst, k)`. -/
def yenKShortestPaths (net : Network) (src dst : Int) (k : Int) :
    List ShortestPathResult :=
  if k ≤ 0 ∨ src = dst then []
  else
    let first := net.dijkstra src dst [] []
    if first.linkPath.isEmpty then []
    else yenOuter net dst (k - 1).toNat [first] [] [first.linkPath] []

/-- `Network::setPaths(k)`: clears for `k ≤ 0`, otherwise fills
`paths[src][dst]` with the link-id routes of the k shortest paths (empty on
the diagonal and when no path exists) and refreshes the out-degrees. -/
def setPaths (net : Network) (k : Int) : Network :=
  if k ≤ 0 then { net with paths := [], pathK := 0 }
  else
    let n := net.nodeCounter.toNat
    { net with
      paths := (List.range n).map (fun src =>
        (List.range n).map (fun dst =>
          if src = dst then []
          else (net.yenKShortestPaths (src : Int) (dst : Int) k).map
            (fun p => p.linkPath))),
      pathK := k,
      nodes := net.nodes.mapIdx (fun i nd =>
        { nd with degree :=
            net.nodesOut.getD (i + 1) 0 - net.nodesOut.getD i 0 }) }

end Network

/-! ### BitRate and ModulationFormat (`src/core/bitrate.cpp`,
`src/core/modulation_format.cpp`) -/

/-- A modulation format: per-band required slots and reach.  (The name
string, GSNR and baud-rate fields are carried by the C++ class but unused by
every claim.) -/
structure ModulationFormat where
  requiredSlotsPerBand : List (Band × Int)
  reachPerBand : List (Band × Rat)
deriving Repr, DecidableEq

namespace ModulationFormat

/-- `ModulationFormat::getRequiredSlots(band)`; `invalid_argument` when the
band is absent. -/
def getRequiredSlots (mf : ModulationFormat) (band : Band) : Except Err Int :=
  match mf.requiredSlotsPerBand.find? (fun q => q.1 == band) with
  | some q => .ok q.2
  | none => .error .invalidArgument

/-- `ModulationFormat::getReach(band)`; `invalid_argument` when the band is
absent. -/
def getReach (mf : ModulationFormat) (band : Band) : Except Err Rat :=
  match mf.reachPerBand.find? (fun q => q.1 == band) with
  | some q => .ok q.2
  | none => .error .invalidArgument

end ModulationFormat

/-- A bitrate (Gbps value plus ordered modulation list). -/
structure BitRate where
  bitRate : Rat
  modulationFormats : List ModulationFormat
deriving Repr, DecidableEq

/-- The `std::accumulate` of the route's link lengths at the top of
`BitRate::getAdaptiveModulation` (`ratAdd` is rational addition,
`ratAdd_eq_add`). -/
def routeLength (route : List Link) : Rat :=
  route.foldl (fun s lk => ratAdd s lk.length) 0

namespace BitRate

/-- One iteration of the selection loop of `BitRate::getAdaptiveModulation`:
read the reach and then the required slots (the modulation is skipped when
either getter throws), and when the reach covers the route select it if it
improves on the running `(minSlots, maxReach)`.  State is
`(bestModulation, minSlots, maxReach)`. -/
def amStep (band : Band) (totalLength : Rat) (st : Int × Int × Rat)
    (i : Nat) (mf : ModulationFormat) : Int × Int × Rat :=
  match mf.getReach band, mf.getRequiredSlots band with
  | .ok reach, .ok slots =>
    if totalLength ≤ reach then
      if slots < st.2.1 ∨ (slots = st.2.1 ∧ st.2.2 < reach) then
        ((i : Int), slots, reach)
      else st
    else st
  | _, _ => st

/-- The `for (int i = 0; i < getNumberOfModulations(); ++i)` loop of
`getAdaptiveModulation`. -/
def amLoop (band : Band) (totalLength : Rat) :
    List ModulationFormat → Nat → Int × Int × Rat → Int × Int × Rat
  | [], _, st => st
  | mf :: rest, i, st =>
    amLoop band totalLength rest (i + 1) (amStep band totalLength st i mf)

/-- `BitRate::getAdaptiveModulation(route, band)`: `bestModulation`
initialised to `-1`, `minSlots` to `INT_MAX = 2147483647`, `maxReach` to
`0.0`. -/
def getAdaptiveModulation (br : BitRate) (route : List Link) (band : Band) :
    Int :=
  (amLoop band (routeLength route) br.modulationFormats 0
    (-1, 2147483647, 0)).1

/-- `BitRate::getAdaptiveModulation(route)`: the default-band overload uses
band C. -/
def getAdaptiveModulationC (br : BitRate) (route : List Link) : Int :=
  br.getAdaptiveModulation route Band.C

/-- Modulation `j` is feasible for `band` at total length `L`: both getters
succeed and the reach covers `L`. -/
def feasIdx (mods : List ModulationFormat) (band : Band) (L : Rat) (j : Nat) :
    Prop :=
  ∃ mf s r, mods.get? j = some mf ∧ mf.getRequiredSlots band = .ok s ∧
    mf.getReach band = .ok r ∧ L ≤ r

/-- Invariant of the adaptive-modulation selection loop after the first `k`
modulations have been examined: either nothing was feasible and the state is
still the initial one, or the state holds a feasible best with minimal slots
and, among those, maximal reach. -/
def amInv (mods : List ModulationFormat) (band : Band) (L : Rat) (k : Nat)
    (st : Int × Int × Rat) : Prop :=
  (st = (-1, 2147483647, 0) ∧ ∀ j, j < k → ¬ feasIdx mods band L j)
  ∨ (∃ i, i < k ∧ ∃ mf s r,
      mods.get? i = some mf ∧ mf.getRequiredSlots band = .ok s ∧
      mf.getReach band = .ok r ∧ L ≤ r ∧ st = ((i : Int), s, r) ∧
      ∀ j, j < k → ∀ mf' s' r', mods.get? j = some mf' →
        mf'.getRequiredSlots band = .ok s' → mf'.getReach band = .ok r' →
        L ≤ r' → s ≤ s' ∧ (s' = s → r' ≤ r))

end BitRate

/-- The BPSK modulation of the 100 Gbps default bitrate: 8 slots, 5520 km
reach on band C (`Simulator::Simulator()`). -/
def mfBPSK100 : ModulationFormat := ⟨[(Band.C, 8)], [(Band.C, 5520)]⟩

/-- The 100 Gbps default bitrate. -/
def br100 : BitRate := ⟨100, [mfBPSK100]⟩

/-- A pathological modulation: required slots equal to `INT_MAX`, reach 0. -/
def mfIntMax : ModulationFormat := ⟨[(Band.C, 2147483647)], [(Band.C, 0)]⟩

/-- A bitrate holding only the pathological modulation. -/
def brIntMax : BitRate := ⟨100, [mfIntMax]⟩

/-! ### Concrete instances used as witnesses and counterexamples -/

/-- Unwrap a constructor result (used only to build concrete witness
networks whose construction visibly succeeds). -/
def okOr (x : Except Err Network) : Network :=
  match x with
  | .ok n => n
  | .error _ => Network.init

/-- A fresh 320-slot SSMF fiber (`Fiber(320)`). -/
def fiber320 : Fiber :=
  match Fiber.ofSlots 320 with
  | .ok f => f
  | .error _ => default

/-- A fresh 2-slot fiber (`Fiber(2)`). -/
def fiber2 : Fiber :=
  match Fiber.ofSlots 2 with
  | .ok f => f
  | .error _ => default

/-- Two nodes joined by one bidirectional pair of 100 km links, each with one
320-slot SSMF fiber, built through the constructors in loader order. -/
def sampleNet : Network :=
  okOr (do
    let n ← Network.init.addNode ⟨0, 0⟩
    let n ← n.addNode ⟨1, 0⟩
    let n ← n.addLink ⟨0, 100, -1, -1, [fiber320]⟩
    let n ← n.connect 0 0 1
    let n ← n.addLink ⟨1, 100, -1, -1, [fiber320]⟩
    n.connect 1 1 0)

/-- A network holding a single link with a 2-slot fiber. -/
def tinyNet : Network :=
  okOr (Network.init.addLink ⟨0, 100, -1, -1, [fiber2]⟩)

/-- A 100 km link carrying one fresh 320-slot SSMF fiber. -/
def link320 : Link := ⟨0, 100, -1, -1, [fiber320]⟩

/-- Stages of a small constructor-built network (two nodes, one link). -/
def bn1 : Network := okOr (Network.init.addNode ⟨0, 0⟩)

def bn2 : Network := okOr (bn1.addNode ⟨1, 0⟩)

def bn3 : Network := okOr (bn2.addLink ⟨0, 100, -1, -1, [fiber2]⟩)

/-- Networks reachable from `Network::Network()` by any sequence of
`addNode`/`addLink` operations. -/
inductive Built : Network → Prop
  | base : Built Network.init
  | node {n n' : Network} {nd : Node} :
      Built n → n.addNode nd = .ok n' → Built n'
  | link {n n' : Network} {lk : Link} :
      Built n → n.addLink lk = .ok n' → Built n'

/-- Strict lexicographic order on link-id sequences (a proper nonempty
suffix makes the longer sequence greater). -/
def routeLexLt : List Int → List Int → Bool
  | [], [] => false
  | [], _ :: _ => true
  | _ :: _, [] => false
  | a :: as, b :: bs =>
    if a < b then true else if b < a then false else routeLexLt as bs

/-- Two nodes joined by four parallel links of equal length 5 km, added and
connected in loader order: links 0 and 2 go 0 → 1, links 1 and 3 go 1 → 0. -/
def net4 : Network :=
  okOr (do
    let n ← Network.init.addNode ⟨0, 0⟩
    let n ← n.addNode ⟨1, 0⟩
    let n ← n.addLink ⟨0, 5, -1, -1, [fiber2]⟩
    let n ← n.connect 0 0 1
    let n ← n.addLink ⟨1, 5, -1, -1, [fiber2]⟩
    let n ← n.connect 1 1 0
    let n ← n.addLink ⟨2, 5, -1, -1, [fiber2]⟩
    let n ← n.connect 0 2 1
    let n ← n.addLink ⟨3, 5, -1, -1, [fiber2]⟩
    n.connect 1 3 0)

/-! ### Demands, connections and the provisioning pipeline (claim C1)

The end-to-end scenario runs `Controller::assignConnections` with the
repository's only first-fit policy, the `FirstFit_100G` allocation function
of `test/test_simulator.cpp` (built from the incremental-allocation macros of
`src/util/macros.hpp`), and reads the utilization the way
`Simulator::printRow` does. -/

/-- `Demand` (`src/core/demand.cpp`); `double` capacities are `Rat`. -/
structure Demand where
  id : Int
  src : Int
  dst : Int
  requiredCapacity : Rat
  allocatedCapacity : Rat
deriving Repr, DecidableEq

namespace Demand

/-- `Demand::isNull`. -/
def isNull (d : Demand) : Bool := d.id < 0

/-- `Demand::isProvisioned`: `allocatedCapacity >= requiredCapacity`. -/
def isProvisioned (d : Demand) : Bool :=
  d.requiredCapacity ≤ d.allocatedCapacity

/-- `Demand::getUnprovisionedCapacity`. -/
def getUnprovisionedCapacity (d : Demand) : Rat :=
  if ratSub d.requiredCapacity d.allocatedCapacity < 0 then 0
  else ratSub d.requiredCapacity d.allocatedCapacity

/-- `Demand::addAllocatedCapacity` (`invalid_argument` on a negative
amount). -/
def addAllocatedCapacity (d : Demand) (capacity : Rat) : Except Err Demand :=
  if capacity < 0 then .error .invalidArgument
  else .ok { d with allocatedCapacity := ratAdd d.allocatedCapacity capacity }

end Demand

/-- The default-constructed `Demand()` used off-diagonal-free in the
simulator's matrix (`isNull` holds). -/
def demandNull : Demand := ⟨-1, -1, -1, 0, 0⟩

/-- A demand matrix, `demands[src][dst]`. -/
abbrev DemandMatrix := List (List Demand)

/-- Update entry `(i, j)` of a demand matrix. -/
def setDemand (ds : DemandMatrix) (i j : Nat) (d : Demand) : DemandMatrix :=
  ds.set i ((ds.getD i []).set j d)

/-- `Connection` (`src/core/connection.cpp`): per-hop parallel vectors; the
`slots` vector of a hop holds the individual slot indices. -/
structure Connection where
  id : Int
  src : Int
  dst : Int
  bitRate : BitRate
  links : List Int
  fibers : List Int
  cores : List Int
  modes : List Int
  bands : List Band
  slots : List (List Int)
  time : Rat
deriving Repr, DecidableEq

namespace Connection

/-- `Connection::Connection(bitRate, src, dst)`: id starts at `-1`
(`invalid_argument` on negative endpoints). -/
def make (br : BitRate) (src dst : Int) : Except Err Connection :=
  if src < 0 then .error .invalidArgument
  else if dst < 0 then .error .invalidArgument
  else .ok ⟨-1, src, dst, br, [], [], [], [], [], [], 0⟩

/-- `Connection::addLink(idLink, fiber, core, band, mode, slotFrom, slotTo)`:
validation then push of one hop, expanding `[slotFrom, slotTo)` into the
explicit slot list. -/
def addLink (conn : Connection) (idLink fiber core : Int) (band : Band)
    (mode slotFrom slotTo : Int) : Except Err Connection :=
  if idLink < 0 then .error .invalidArgument
  else if fiber < 0 then .error .invalidArgument
  else if core < 0 then .error .invalidArgument
  else if mode < 0 then .error .invalidArgument
  else if slotFrom < 0 ∨ (slotTo < 0 ∧ slotTo ≠ -1) then .error .invalidArgument
  else if slotFrom ≥ slotTo ∧ slotTo ≠ -1 then .error .invalidArgument
  else .ok { conn with
    links := conn.links ++ [idLink],
    fibers := conn.fibers ++ [fiber],
    cores := conn.cores ++ [core],
    bands := conn.bands ++ [band],
    modes := conn.modes ++ [mode],
    slots := conn.slots ++
      [(List.range (slotTo - slotFrom).toNat).map (fun k => slotFrom + (k : Int))] }

end Connection

namespace Network

/-- `Network::getLink(src, dst)`: scan the source's out-segment against the
destination's in-segment, returning the first link present in both
(`none` models the `nullptr` return). -/
def getLinkBetween (net : Network) (src dst : Int) : Option Int :=
  ((net.linksOut.drop (net.nodesOut.getD src.toNat 0).toNat).take
      ((net.nodesOut.getD (src.toNat + 1) 0).toNat -
        (net.nodesOut.getD src.toNat 0).toNat)).find? (fun lo =>
    ((net.linksIn.drop (net.nodesIn.getD dst.toNat 0).toNat).take
        ((net.nodesIn.getD (dst.toNat + 1) 0).toNat -
          (net.nodesIn.getD dst.toNat 0).toNat)).any (fun li => li == lo))

end Network

namespace BitRate

/-- `BitRate::getRequiredSlots(modulationPos, band)`: `validateAux`
(`out_of_range`) then the modulation's per-band lookup. -/
def getRequiredSlotsAt (br : BitRate) (pos : Int) (band : Band) :
    Except Err Int :=
  if pos < 0 ∨ (br.modulationFormats.length : Int) ≤ pos then .error .outOfRange
  else match br.modulationFormats.get? pos.toNat with
    | some mf => mf.getRequiredSlots band
    | none => .error .outOfRange

end BitRate

/-- `GET_BITRATE_BY_VALUE`: first bitrate whose value is within `1e-6` of the
requested one (`runtime_error` when absent). -/
def getBitRateByValue (rates : List BitRate) (v : Rat) : Except Err BitRate :=
  match rates.find? (fun r => ratAbs (ratSub r.bitRate v) < mkRat 1 1000000) with
  | some r => .ok r
  | none => .error .runtimeError

/-- The `for (i = 0; i < links.size(); i++) useSlots(...)` loop shared by
`Allocator::alloc` and the commit loop of `Controller::assignConnections`:
hop `i` marks `[slots[i][0], slots[i].back() + 1)` with the connection's id.
Exceptions escape with the in-place writes already made. -/
def connUseSlots (c : Connection) : Network → List Nat → Option Err × Network
  | net, [] => (none, net)
  | net, i :: rest =>
    match net.useSlots (c.links.getD i 0) (c.fibers.getD i 0) (c.cores.getD i 0)
        (c.bands.getD i Band.C) (c.modes.getD i 0) ((c.slots.getD i []).getD 0 0)
        (((c.slots.getD i []).getLast?.getD 0) + 1) c.id with
    | (some e, net') => (some e, net')
    | (none, net') => connUseSlots c net' rest

namespace FirstFit

/-- The preferred band order of `FirstFit_100G`. -/
def bandOrder : List Band := [Band.C, Band.L, Band.S, Band.E]

/-- `GET_MIN_NUM_CORES` with fiber index 0 on every hop (`SIZE_MAX`
initial). -/
def minNumCores (net : Network) (route : List Int) : Nat :=
  route.foldl (fun acc lid =>
    Nat.min acc (net.fiberAt lid.toNat 0).getNumberOfCores) 18446744073709551615

/-- `GET_MIN_NUM_MODES` with fiber index 0 on every hop. -/
def minNumModes (net : Network) (route : List Int) (c : Nat) (band : Band) :
    Nat :=
  route.foldl (fun acc lid =>
    Nat.min acc ((net.fiberAt lid.toNat 0).numberOfModesD c band))
    18446744073709551615

/-- `GET_MIN_NUM_SLOTS` with fiber index 0 on every hop. -/
def minNumSlots (net : Network) (route : List Int) (c : Nat) (band : Band)
    (m : Nat) : Nat :=
  route.foldl (fun acc lid =>
    Nat.min acc ((net.fiberAt lid.toNat 0).numberOfSlotsD c band m))
    18446744073709551615

/-- The `totalSlots` availability vector of `FirstFit_100G`: slot `s` is
marked used when on any hop `GET_SLOT(...) != -1` — the allocator's free
test. -/
def totalSlotsVec (net : Network) (route : List Int) (c : Nat) (band : Band)
    (m : Nat) (minSlots : Nat) : List Bool :=
  (List.range minSlots).map (fun s =>
    route.any (fun lid => (net.fiberAt lid.toNat 0).getSlotD c band m s != -1))

/-- The contiguous-block search of `FirstFit_100G`: running counter of free
slots, reset (and start index moved past `s`) at each used slot, success when
the counter reaches `required`. -/
def findBlockAux (required : Int) : List Bool → Nat → Nat → Nat → Option Nat
  | [], _, _, _ => none
  | b :: rest, s, cnt, idx =>
    let cnt' := if b then 0 else cnt + 1
    let idx' := if b then s + 1 else idx
    if (cnt' : Int) = required then some idx'
    else findBlockAux required rest (s + 1) cnt' idx'

/-- Entry point of the block search (`currentNumberSlots = 0`,
`currentSlotIndex = 0`). -/
def findBlock (ts : List Bool) (required : Int) : Option Nat :=
  findBlockAux required ts 0 0 0

/-- The mode loop of `FirstFit_100G` for a fixed core: build the
availability vector, fetch the required slots, search for a block. -/
def tryModes (net : Network) (br : BitRate) (mfIdx : Int) (route : List Int)
    (band : Band) (c : Nat) : List Nat → Except Err (Option (Nat × Nat × Int))
  | [] => .ok none
  | m :: ms => do
    let minSlots := minNumSlots net route c band m
    let ts := totalSlotsVec net route c band m minSlots
    let required ← br.getRequiredSlotsAt mfIdx band
    match findBlock ts required with
    | some idx => .ok (some (m, idx, required))
    | none => tryModes net br mfIdx route band c ms

/-- The core loop of `FirstFit_100G`. -/
def tryCores (net : Network) (br : BitRate) (mfIdx : Int) (route : List Int)
    (band : Band) : List Nat → Except Err (Option (Nat × Nat × Nat × Int))
  | [] => .ok none
  | c :: cs => do
    match ← tryModes net br mfIdx route band c
        (List.range (minNumModes net route c band)) with
    | some (m, idx, req) => .ok (some (c, m, idx, req))
    | none => tryCores net br mfIdx route band cs

/-- The band loop of `FirstFit_100G`: skip a band missing on some hop's
fiber 0 or with no feasible adaptive modulation, otherwise search
cores/modes. -/
def tryBands (net : Network) (br : BitRate) (route : List Int) :
    List Band → Except Err (Option (Band × Nat × Nat × Nat × Int))
  | [] => .ok none
  | band :: rest =>
    if ¬ route.all (fun lid => (net.fiberAt lid.toNat 0).getBands.contains band)
    then tryBands net br route rest
    else
      let mfIdx := br.getAdaptiveModulation
        (route.map (fun lid => net.linkAt lid.toNat)) band
      if mfIdx = -1 then tryBands net br route rest
      else do
        match ← tryCores net br mfIdx route band
            (List.range (minNumCores net route)) with
        | some (c, m, idx, req) => .ok (some (band, c, m, idx, req))
        | none => tryBands net br route rest

/-- The route loop of `FirstFit_100G`. -/
def tryRoutes (net : Network) (br : BitRate) :
    List (List Int) →
      Except Err (Option (List Int × Band × Nat × Nat × Nat × Int))
  | [] => .ok none
  | rt :: rest => do
    match ← tryBands net br rt bandOrder with
    | some (band, c, m, idx, req) => .ok (some (rt, band, c, m, idx, req))
    | none => tryRoutes net br rest

/-- Populate the forward connection: one `ADD_LINK_TO_CONNECTION` per hop
(the macro passes `slotFrom + len` as the upper bound). -/
def buildForward (br : BitRate) (src dst : Int) (rt : List Int)
    (band : Band) (c m idx : Nat) (req : Int) : Except Err Connection := do
  let conn ← Connection.make br src dst
  rt.foldlM (fun conn lid =>
    conn.addLink lid 0 (c : Int) band (m : Int) (idx : Int) ((idx : Int) + req))
    conn

/-- Populate the mirror connection: reversed hops, each mapped to the
opposite-direction link via `Network::getLink(dst, src)`; the test's
`REQUIRE(linkRev)` failure on a missing reverse link is an exception. -/
def buildMirror (net : Network) (br : BitRate) (src dst : Int) (rt : List Int)
    (band : Band) (c m idx : Nat) (req : Int) : Except Err Connection := do
  let conn ← Connection.make br dst src
  (List.range rt.length).foldlM (fun conn mirrorIdx =>
    let fwdIdx := rt.length - 1 - mirrorIdx
    let linkF := net.linkAt (rt.getD fwdIdx 0).toNat
    match net.getLinkBetween linkF.dst linkF.src with
    | none => .error .runtimeError
    | some lidR =>
      conn.addLink lidR 0 (c : Int) band (m : Int) (idx : Int)
        ((idx : Int) + req)) conn

/-- `ALLOCATE_CONNECTION`: `Allocator::alloc` on the snapshot (the id is
still `-1`), push onto `newConnections`, credit the *current demand* of the
copied matrix. -/
def allocateConnection (snap : Network) (d : Demand)
    (conns : List Connection) (conn : Connection) :
    Except Err (Network × Demand × List Connection) := do
  match connUseSlots conn snap (List.range conn.links.length) with
  | (some e, _) => .error e
  | (none, snap') => do
    let d' ← d.addAllocatedCapacity conn.bitRate.bitRate
    .ok (snap', d', conns ++ [conn])

/-- One lightpath attempt of `FirstFit_100G` for the current demand: search
route/band/core/mode; on success build and allocate the forward and mirror
connections, otherwise fall through to the next lightpath. -/
def placeLightpath (br : BitRate) (st : Network × Demand × List Connection) :
    Except Err (Network × Demand × List Connection) := do
  let (snap, d, conns) := st
  match ← tryRoutes snap br
      ((snap.paths.getD d.src.toNat []).getD d.dst.toNat []) with
  | none => .ok st
  | some (rt, band, c, m, idx, req) => do
    let fwd ← buildForward br d.src d.dst rt band c m idx req
    let mir ← buildMirror snap br d.src d.dst rt band c m idx req
    let st1 ← allocateConnection snap d conns fwd
    allocateConnection st1.1 st1.2.1 st1.2.2 mir

/-- The `for (lp = 0; lp < neededLPs; lp++)` loop. -/
def lpLoop (br : BitRate) :
    Nat → Network × Demand × List Connection →
      Except Err (Network × Demand × List Connection)
  | 0, st => .ok st
  | n + 1, st => do lpLoop br n (← placeLightpath br st)

/-- `(int)std::ceil(getUnprovisionedCapacity() / 100.0f)` as exact rational
arithmetic. -/
def neededLPs (d : Demand) : Int :=
  intCeilDiv d.getUnprovisionedCapacity.num
    (100 * (d.getUnprovisionedCapacity.den : Int))

/-- Process demand `(i, j)` of the copied matrix: skip null or provisioned
demands, otherwise run the lightpath loop. -/
def demandStep (br : BitRate)
    (st : Network × DemandMatrix × List Connection) (i j : Nat) :
    Except Err (Network × DemandMatrix × List Connection) :=
  let d := (st.2.1.getD i []).getD j demandNull
  if d.isNull then .ok st
  else if d.isProvisioned then .ok st
  else do
    let r ← lpLoop br (neededLPs d).toNat (st.1, d, st.2.2)
    .ok (r.1, setDemand st.2.1 i j r.2.1, r.2.2)

end FirstFit

/-- The `FirstFit_100G` allocation function of `test/test_simulator.cpp`:
fetch the 100 Gbps bitrate, then `FOR_EACH_DEMAND_SYMMETRIC` (pairs
`(i, j)` with `j < i`). -/
def firstFit100GExec (bitRates : List BitRate) (snap : Network)
    (demands : DemandMatrix) :
    Except Err (Network × DemandMatrix × List Connection) := do
  let br ← getBitRateByValue bitRates 100
  (List.range demands.length).foldlM (fun st i =>
    (List.range i).foldlM (fun st j => FirstFit.demandStep br st i j) st)
    (snap, demands, [])

/-- The commit loop of `Controller::assignConnections` (lines 110–134): per
new connection, stamp id and time, credit `demands[src][dst]`, mark the
slots on the *live* network hop by hop (exceptions escape mid-commit), and
append to the controller's connections. -/
def commitLoop (time : Rat) :
    Network × DemandMatrix × List Connection → List Connection →
      Option Err × Network × DemandMatrix × List Connection
  | st, [] => (none, st.1, st.2.1, st.2.2)
  | (net, demands, conns), c :: rest =>
    let c' := { c with id := (conns.length : Int), time := time }
    let d := (demands.getD c'.src.toNat []).getD c'.dst.toNat demandNull
    match d.addAllocatedCapacity c'.bitRate.bitRate with
    | .error e => (some e, net, demands, conns)
    | .ok d' =>
      let demands' := setDemand demands c'.src.toNat c'.dst.toNat d'
      match connUseSlots c' net (List.range c'.links.length) with
      | (some e, net') => (some e, net', demands', conns)
      | (none, net') => commitLoop time (net', demands', conns ++ [c']) rest

/-- `Controller::assignConnections` with the `FirstFit_100G` allocator: the
allocator works on a snapshot copy of the network and a copy of the demand
matrix (both discarded), then the new connections are committed to the live
network and the live demands. -/
def assignConnectionsFF (net : Network) (demands : DemandMatrix)
    (bitRates : List BitRate) (conns : List Connection) (time : Rat) :
    Option Err × Network × DemandMatrix × List Connection :=
  match firstFit100GExec bitRates net demands with
  | .error e => (some e, net, demands, conns)
  | .ok (_, _, newConns) => commitLoop time (net, demands, conns) newConns

/-- The used-slot count of `Simulator::printRow`: a slot counts as used when
its `int` value is truthy (`!= 0`); the traversal is the one of
`Link.visitedSlotVals`. -/
def usedSlotsPrintRow (net : Network) : Nat :=
  ((net.links.flatMap Link.visitedSlotVals).filter (fun v => v != 0)).length

/-- The total slot count of `Simulator::printRow`. -/
def totalSlotsPrintRow (net : Network) : Nat :=
  (net.links.flatMap Link.visitedSlotVals).length

/-- The per-period network utilization printed by `Simulator::printRow`. -/
def utilizationPrintRow (net : Network) : Rat :=
  if totalSlotsPrintRow net = 0 then 0
  else ((usedSlotsPrintRow net : Rat) / (totalSlotsPrintRow net : Rat)) * 100

/-- The C1 scenario network: `sampleNet` (two nodes, one bidirectional pair
of 100 km links, 320-slot C-band SSMF fibers) with single-route paths. -/
def scenarioNet : Network := sampleNet.setPaths 1

/-- The C1 scenario demand matrix: 100 Gbps in both directions. -/
def scenarioDemands : DemandMatrix :=
  [[demandNull, ⟨0, 0, 1, 100, 0⟩], [⟨1, 1, 0, 100, 0⟩, demandNull]]

/-! ## Theorems -/

/-- `ratAdd` is rational addition. -/
theorem ratAdd_eq_add (a b : Rat) : ratAdd a b = a + b := by
  have h : a.den * b.den ≠ 0 := Nat.mul_ne_zero a.den_nz b.den_nz
  unfold ratAdd mkRat
  rw [Rat.add_def, dif_neg h]

/-- `ratNeg` is rational negation. -/
theorem ratNeg_eq_neg (a : Rat) : ratNeg a = -a := by
  unfold ratNeg
  rw [← Rat.neg_mkRat, Rat.mkRat_self]

/-- `ratSub` is rational subtraction. -/
theorem ratSub_eq_sub (a b : Rat) : ratSub a b = a - b := by
  unfold ratSub
  rw [ratAdd_eq_add, ratNeg_eq_neg, sub_eq_add_neg]

/-- `ratAbs` is the rational absolute value. -/
theorem ratAbs_eq_abs (a : Rat) : ratAbs a = |a| := by
  unfold ratAbs
  rcases le_or_lt 0 a.num with h | h
  · rw [Int.natAbs_of_nonneg h, Rat.mkRat_self,
      abs_of_nonneg (Rat.num_nonneg.mp h)]
  · rw [Int.ofNat_natAbs_of_nonpos (le_of_lt h), ← Rat.neg_mkRat,
      Rat.mkRat_self,
      abs_of_neg (lt_of_not_ge fun hge =>
        absurd (Rat.num_nonneg.mpr hge) (not_le.mpr h))]

/-! ### List lemmas (getD/set interplay) -/

theorem getD_set_self {α : Type} (l : List α) (i : Nat) (a d : α)
    (h : i < l.length) : (l.set i a).getD i d = a := by
  induction l generalizing i with
  | nil => simp at h
  | cons x xs ih =>
    cases i with
    | zero => simp [List.set, List.getD]
    | succ j =>
      simp only [List.set, List.getD, List.get?] at *
      exact ih j (Nat.lt_of_succ_lt_succ h)

theorem getD_set_of_ne {α : Type} (l : List α) (i j : Nat) (a d : α)
    (h : i ≠ j) : (l.set i a).getD j d = l.getD j d := by
  induction l generalizing i j with
  | nil => simp [List.set]
  | cons x xs ih =>
    cases i with
    | zero =>
      cases j with
      | zero => exact absurd rfl h
      | succ j' => simp [List.set, List.getD]
    | succ i' =>
      cases j with
      | zero => simp [List.set, List.getD]
      | succ j' =>
        simp only [List.set, List.getD, List.get?] at *
        exact ih i' j' (fun hc => h (by rw [hc]))

theorem getD_mem_or {α : Type} (l : List α) (i : Nat) (d : α) :
    l.getD i d = d ∨ l.getD i d ∈ l := by
  induction l generalizing i with
  | nil => left; rfl
  | cons x xs ih =>
    cases i with
    | zero => right; rw [List.getD_cons_zero]; exact List.mem_cons_self x xs
    | succ j =>
      rw [List.getD_cons_succ]
      rcases ih j with h | h
      · left; exact h
      · right; exact List.mem_cons_of_mem x h

theorem getD_mem_of_lt {α : Type} (l : List α) (i : Nat) (d : α)
    (h : i < l.length) : l.getD i d ∈ l := by
  induction l generalizing i with
  | nil => simp at h
  | cons x xs ih =>
    cases i with
    | zero => rw [List.getD_cons_zero]; exact List.mem_cons_self x xs
    | succ j =>
      rw [List.getD_cons_succ]
      exact List.mem_cons_of_mem x (ih j (Nat.lt_of_succ_lt_succ h))

theorem find?_map_keyed {β : Type} (l : List (Band × β)) (g : Band × β → Band × β)
    (hg : ∀ q, (g q).1 = q.1) (b : Band) :
    (l.map g).find? (fun q => q.1 == b) = (l.find? (fun q => q.1 == b)).map g := by
  induction l with
  | nil => rfl
  | cons q t ih =>
    simp only [List.map_cons, List.find?_cons, hg q]
    cases h : (q.1 == b) with
    | false => simpa [h] using ih
    | true => simp [h]

/-! ### Fiber-level slot lemmas -/

namespace Fiber

theorem cellOkB_elim {f : Fiber} {b : Band} {c m cnt : Nat}
    (h : f.cellOkB b c m cnt = true) :
    ∃ M, f.findBand b = some M ∧ c < M.length ∧ m < (M.getD c []).length ∧
      ((M.getD c []).getD m []).length = cnt := by
  unfold cellOkB at h
  cases hfb : f.findBand b with
  | none => rw [hfb] at h; exact absurd h (by simp)
  | some M =>
    rw [hfb] at h
    simp only [Bool.and_eq_true, decide_eq_true_eq, beq_iff_eq] at h
    exact ⟨M, rfl, h.1.1, h.1.2, h.2⟩

theorem findBand_writeSlot (f : Fiber) (b : Band) (c m p : Nat) (v : Int)
    (b' : Band) :
    (f.writeSlot b c m p v).findBand b' =
      (f.findBand b').map (fun M => if b' = b then updCell M c m p v else M) := by
  unfold writeSlot findBand
  simp only
  rw [find?_map_keyed _ _ (fun q => by by_cases hq : q.1 == b <;> simp [hq])]
  cases hf : f.resources.find? (fun q => q.1 == b') with
  | none => simp
  | some q =>
    have hq : q.1 = b' := by
      have := List.find?_some hf
      simpa [beq_iff_eq] using this
    by_cases hbb : b' = b
    · subst hbb; simp [hq]
    · simp [hq, hbb]

theorem updCell_getD (M : List (List (List Int))) (c m p : Nat) (v : Int)
    (hc : c < M.length) (c' : Nat) :
    (updCell M c m p v).getD c' [] =
      if c' = c then
        (M.getD c []).set m (((M.getD c []).getD m []).set p v)
      else M.getD c' [] := by
  unfold updCell
  by_cases h : c' = c
  · subst h; rw [getD_set_self _ _ _ _ hc]; simp
  · rw [getD_set_of_ne _ _ _ _ _ (fun hh => h hh.symm)]; simp [h]

theorem updCell_lens (M : List (List (List Int))) (c m p : Nat) (v : Int)
    (hc : c < M.length) (hm : m < (M.getD c []).length) :
    (updCell M c m p v).length = M.length ∧
    ∀ c' : Nat, ((updCell M c m p v).getD c' []).length = (M.getD c' []).length ∧
      ∀ m' : Nat, (((updCell M c m p v).getD c' []).getD m' []).length =
        ((M.getD c' []).getD m' []).length := by
  refine ⟨by unfold updCell; simp, fun c' => ?_⟩
  rw [updCell_getD M c m p v hc c']
  by_cases hcc : c' = c
  · subst hcc
    simp only [eq_self_iff_true, if_true]
    refine ⟨by simp, fun m' => ?_⟩
    by_cases hmm : m' = m
    · subst hmm
      rw [getD_set_self _ _ _ _ hm]
      simp
    · rw [getD_set_of_ne _ _ _ _ _ (fun hh => hmm hh.symm)]
  · simp [hcc]

theorem getSlotD_writeSlot {f : Fiber} {b : Band} {c m cnt : Nat}
    (hcell : f.cellOkB b c m cnt = true) {p : Nat} (hp : p < cnt) (v : Int)
    (c' m' p' : Nat) (b' : Band) :
    (f.writeSlot b c m p v).getSlotD c' b' m' p' =
      if b' = b ∧ c' = c ∧ m' = m ∧ p' = p then v
      else f.getSlotD c' b' m' p' := by
  obtain ⟨M, hM, hc, hm, hlen⟩ := cellOkB_elim hcell
  unfold getSlotD
  rw [findBand_writeSlot]
  by_cases hbb : b' = b
  · subst hbb
    rw [hM]
    simp only [Option.map_some', Option.getD_some, eq_self_iff_true, if_true]
    rw [updCell_getD M c m p v hc]
    by_cases hcc : c' = c
    · subst hcc
      simp only [eq_self_iff_true, if_true, true_and]
      by_cases hmm : m' = m
      · subst hmm
        rw [getD_set_self _ _ _ _ hm]
        by_cases hpp : p' = p
        · subst hpp
          rw [getD_set_self _ _ _ _ (by rw [hlen]; exact hp)]
          simp
        · rw [getD_set_of_ne _ _ _ _ _ (fun hh => hpp hh.symm)]
          simp [hpp]
      · rw [getD_set_of_ne _ _ _ _ _ (fun hh => hmm hh.symm)]
        simp [hmm]
    · simp [hcc]
  · cases hM' : f.findBand b' with
    | none => simp [hbb, hM']
    | some M' => simp [hbb, hM']

theorem writeSlot_findBand_none {f : Fiber} {b b' : Band} {c m p : Nat} {v : Int}
    (h' : f.findBand b' = none) :
    (f.writeSlot b c m p v).findBand b' = none := by
  rw [findBand_writeSlot, h']; rfl

theorem writeSlot_findBand_some {f : Fiber} {b b' : Band} {c m p : Nat} {v : Int}
    {M M' : List (List (List Int))}
    (hM : f.findBand b = some M) (h' : f.findBand b' = some M') :
    (f.writeSlot b c m p v).findBand b' =
      some (if b' = b then updCell M c m p v else M') := by
  rw [findBand_writeSlot, h']
  by_cases hbb : b' = b
  · subst hbb
    have hMM : M = M' := Option.some.inj (hM.symm.trans h')
    subst hMM
    simp
  · simp [hbb]

theorem validateAux_writeSlot {f : Fiber} {b : Band} {c m cnt : Nat}
    (hcell : f.cellOkB b c m cnt = true) (p : Nat) (v : Int)
    (ci mi pi : Int) (b' : Band) :
    (f.writeSlot b c m p v).validateAux ci b' mi pi =
      f.validateAux ci b' mi pi := by
  obtain ⟨M, hM, hc, hm, _⟩ := cellOkB_elim hcell
  unfold validateAux
  cases h' : f.findBand b' with
  | none => rw [writeSlot_findBand_none h']
  | some M' =>
    rw [writeSlot_findBand_some hM h']
    by_cases hbb : b' = b
    · subst hbb
      have hMM : M = M' := Option.some.inj (hM.symm.trans h')
      subst hMM
      simp only [eq_self_iff_true, if_true]
      obtain ⟨hL, hrest⟩ := updCell_lens M c m p v hc hm
      rw [hL, (hrest ci.toNat).1, (hrest ci.toNat).2 mi.toNat]
    · simp [hbb]

theorem validateAux_valid {f : Fiber} {b : Band} {c m cnt : Nat}
    (hcell : f.cellOkB b c m cnt = true) {p : Nat} (hp : p < cnt) :
    f.validateAux (c : Int) b (m : Int) (p : Int) = none := by
  obtain ⟨M, hM, hc, hm, hlen⟩ := cellOkB_elim hcell
  unfold validateAux
  rw [hM]
  dsimp only
  rw [if_neg (by omega)]
  rw [Int.toNat_natCast]
  rw [if_neg (by omega)]
  rw [Int.toNat_natCast]
  rw [if_neg (by omega)]

theorem validateAux_oob {f : Fiber} {b : Band} {c m cnt : Nat}
    (hcell : f.cellOkB b c m cnt = true) {p : Nat} (hp : cnt ≤ p) :
    f.validateAux (c : Int) b (m : Int) (p : Int) = some .outOfRange := by
  obtain ⟨M, hM, hc, hm, hlen⟩ := cellOkB_elim hcell
  unfold validateAux
  rw [hM]
  dsimp only
  rw [if_neg (by omega)]
  rw [Int.toNat_natCast]
  rw [if_neg (by omega)]
  rw [Int.toNat_natCast]
  rw [if_pos (by omega)]

theorem getSlot_valid {f : Fiber} {b : Band} {c m cnt : Nat}
    (hcell : f.cellOkB b c m cnt = true) {p : Nat} (hp : p < cnt) :
    f.getSlot (c : Int) b (m : Int) (p : Int) = .ok (f.getSlotD c b m p) := by
  unfold getSlot
  rw [validateAux_valid hcell hp]
  simp [getSlotD, Int.toNat_natCast]

theorem setSlot_valid {f : Fiber} {b : Band} {c m cnt : Nat}
    (hcell : f.cellOkB b c m cnt = true) {p : Nat} (hp : p < cnt) (v : Int) :
    f.setSlot (c : Int) b (m : Int) (p : Int) v =
      .ok (f.writeSlot b c m p v) := by
  unfold setSlot
  rw [validateAux_valid hcell hp]
  simp [Int.toNat_natCast]

theorem setSlot_oob {f : Fiber} {b : Band} {c m cnt : Nat}
    (hcell : f.cellOkB b c m cnt = true) {p : Nat} (hp : cnt ≤ p) (v : Int) :
    f.setSlot (c : Int) b (m : Int) (p : Int) v = .error .outOfRange := by
  unfold setSlot
  rw [validateAux_oob hcell hp]

theorem getSlot_writeSlot {f : Fiber} {b : Band} {c m cnt : Nat}
    (hcell : f.cellOkB b c m cnt = true) {p : Nat} (hp : p < cnt) (v : Int)
    (c' m' p' : Nat) (b' : Band) :
    (f.writeSlot b c m p v).getSlot (c' : Int) b' (m' : Int) (p' : Int) =
      if b' = b ∧ c' = c ∧ m' = m ∧ p' = p then .ok v
      else f.getSlot (c' : Int) b' (m' : Int) (p' : Int) := by
  unfold getSlot
  rw [validateAux_writeSlot hcell p v]
  cases hv : f.validateAux (c' : Int) b' (m' : Int) (p' : Int) with
  | some e =>
    rw [if_neg]
    intro ⟨h1, h2, h3, h4⟩
    subst h1; subst h2; subst h3; subst h4
    rw [validateAux_valid hcell hp] at hv
    exact Option.noConfusion hv
  | none =>
    have hchain := getSlotD_writeSlot hcell hp v c' m' p' b'
    unfold getSlotD at hchain
    simp only [Int.toNat_natCast]
    rw [hchain]
    by_cases hcond : b' = b ∧ c' = c ∧ m' = m ∧ p' = p
    · simp [hcond]
    · simp [hcond]

theorem cellOkB_writeSlot {f : Fiber} {b : Band} {c m cnt : Nat}
    (hcell : f.cellOkB b c m cnt = true) (p : Nat) (v : Int)
    (b0 : Band) (c0 m0 cnt0 : Nat) :
    (f.writeSlot b c m p v).cellOkB b0 c0 m0 cnt0 = f.cellOkB b0 c0 m0 cnt0 := by
  obtain ⟨M, hM, hc, hm, _⟩ := cellOkB_elim hcell
  unfold cellOkB
  cases h' : f.findBand b0 with
  | none => rw [writeSlot_findBand_none h']
  | some M' =>
    rw [writeSlot_findBand_some hM h']
    by_cases hbb : b0 = b
    · subst hbb
      have hMM : M = M' := Option.some.inj (hM.symm.trans h')
      subst hMM
      simp only [eq_self_iff_true, if_true]
      obtain ⟨hL, hrest⟩ := updCell_lens M c m p v hc hm
      rw [hL, (hrest c0).1, (hrest c0).2 m0]
    · simp [hbb]

theorem allSlotsZero_getSlotD {f : Fiber} (h : f.allSlotsZero = true)
    {c : Nat} {b : Band} {m p : Nat} : f.getSlotD c b m p = 0 := by
  unfold getSlotD
  cases hM : f.findBand b with
  | none => simp
  | some M =>
    have hMall : M.all (fun cm => cm.all (fun sl =>
        sl.all (fun s => s == 0))) = true := by
      unfold findBand at hM
      cases hq : f.resources.find? (fun q => q.1 == b) with
      | none => rw [hq] at hM; exact Option.noConfusion hM
      | some q =>
        rw [hq] at hM
        simp only [Option.map_some'] at hM
        have hq2 : q.2 = M := Option.some.inj hM
        have hqmem : q ∈ f.resources := List.mem_of_find?_eq_some hq
        have hall := (List.all_eq_true.mp h) q hqmem
        rw [← hq2]
        exact hall
    simp only [Option.getD_some]
    rcases getD_mem_or M c [] with h1 | h1
    · rw [h1]; simp
    · have hcm := (List.all_eq_true.mp hMall) _ h1
      rcases getD_mem_or (M.getD c []) m [] with h2 | h2
      · rw [h2]; simp
      · have hsl := (List.all_eq_true.mp hcm) _ h2
        rcases getD_mem_or ((M.getD c []).getD m []) p 0 with h3 | h3
        · rw [h3]
        · have hz := (List.all_eq_true.mp hsl) _ h3
          simpa using hz

theorem occupied_of_cell {g : Fiber} {b : Band} {c m cnt p : Nat}
    (hcell : g.cellOkB b c m cnt = true) (hp : p < cnt)
    (hv : g.getSlotD c b m p ≠ 0) :
    g.resources.any (fun q => q.2.any (fun cm => cm.any (fun sl =>
      sl.any (fun s => s != 0)))) = true := by
  obtain ⟨M, hM, hc, hm, hlen⟩ := cellOkB_elim hcell
  have hval : g.getSlotD c b m p =
      (((M.getD c []).getD m []).getD p 0) := by
    unfold getSlotD
    rw [hM]
    rfl
  rw [hval] at hv
  unfold findBand at hM
  cases hq : g.resources.find? (fun q => q.1 == b) with
  | none => rw [hq] at hM; exact Option.noConfusion hM
  | some q =>
    rw [hq] at hM
    simp only [Option.map_some'] at hM
    have hq2 : q.2 = M := Option.some.inj hM
    have hqmem : q ∈ g.resources := List.mem_of_find?_eq_some hq
    rw [List.any_eq_true]
    refine ⟨q, hqmem, ?_⟩
    rw [List.any_eq_true, hq2]
    refine ⟨M.getD c [], getD_mem_of_lt _ _ _ hc, ?_⟩
    rw [List.any_eq_true]
    refine ⟨(M.getD c []).getD m [], getD_mem_of_lt _ _ _ hm, ?_⟩
    rw [List.any_eq_true]
    refine ⟨((M.getD c []).getD m []).getD p 0,
      getD_mem_of_lt _ _ _ (by rw [hlen]; exact hp), ?_⟩
    simpa using hv

theorem setCores_occupied {g : Fiber} {cfg : List (List Int)}
    (h1 : cfg.isEmpty = false)
    (h2 : cfg.any (fun core => core.isEmpty) = false)
    (h3 : cfg.any (fun core => core.any (fun s => s < 1)) = false)
    (hocc : g.resources.any (fun q => q.2.any (fun cm => cm.any (fun sl =>
      sl.any (fun s => s != 0)))) = true) :
    g.setCores cfg = .error .runtimeError := by
  unfold setCores
  rw [if_neg (by simp [h1]), if_neg (by simp [h2]), if_neg (by simp [h3]),
    if_pos hocc]

theorem setModes_occupied {g : Fiber} {core : Nat} {b : Band}
    {M : List (List (List Int))} {spm : List Int}
    (hcore : core < g.getNumberOfCores) (hM : g.findBand b = some M)
    (h1 : spm.isEmpty = false) (h2 : spm.any (fun s => s < 1) = false)
    (hocc : (M.getD core []).any (fun sl => sl.any (fun s => s != 0)) = true) :
    g.setModes (core : Int) b spm = .error .runtimeError := by
  unfold setModes
  rw [if_neg (by omega)]
  rw [hM]
  dsimp only
  rw [if_neg (by simp [h1]), if_neg (by simp [h2])]
  rw [Int.toNat_natCast, if_pos hocc]

end Fiber

/-! ### Network-level slot lemmas -/

namespace Network

theorem netCellOkB_elim {net : Network} {l f : Nat} {b : Band} {c m cnt : Nat}
    (h : net.cellOkB l f b c m cnt = true) :
    net.linkCounter = (net.links.length : Int) ∧ l < net.links.length ∧
      f < (net.linkAt l).fibers.length ∧
      (net.fiberAt l f).cellOkB b c m cnt = true := by
  unfold cellOkB at h
  simp only [Bool.and_eq_true, decide_eq_true_eq, beq_iff_eq] at h
  exact ⟨h.1.1.1, h.1.1.2, h.1.2, h.2⟩

theorem linkCounter_putFiber (net : Network) (l f : Nat) (fib : Fiber) :
    (net.putFiber l f fib).linkCounter = net.linkCounter := rfl

theorem links_length_putFiber (net : Network) (l f : Nat) (fib : Fiber) :
    (net.putFiber l f fib).links.length = net.links.length := by
  unfold putFiber; simp

theorem linkAt_putFiber {net : Network} {l : Nat} (f : Nat) (fib : Fiber)
    (hl : l < net.links.length) (l' : Nat) :
    (net.putFiber l f fib).linkAt l' =
      if l' = l then
        { net.linkAt l with fibers := (net.linkAt l).fibers.set f fib }
      else net.linkAt l' := by
  unfold putFiber linkAt
  by_cases h : l' = l
  · subst h; rw [getD_set_self _ _ _ _ hl]; simp
  · rw [getD_set_of_ne _ _ _ _ _ (fun hh => h hh.symm)]; simp [h]

theorem fibersLen_putFiber {net : Network} {l : Nat} (f : Nat) (fib : Fiber)
    (hl : l < net.links.length) (l' : Nat) :
    ((net.putFiber l f fib).linkAt l').fibers.length =
      (net.linkAt l').fibers.length := by
  rw [linkAt_putFiber f fib hl l']
  by_cases h : l' = l
  · subst h; simp
  · simp [h]

theorem fiberAt_putFiber {net : Network} {l f : Nat} (fib : Fiber)
    (hl : l < net.links.length) (l' f' : Nat) :
    (net.putFiber l f fib).fiberAt l' f' =
      if l' = l ∧ f' = f ∧ f < (net.linkAt l).fibers.length then fib
      else net.fiberAt l' f' := by
  unfold fiberAt
  rw [linkAt_putFiber f fib hl l']
  by_cases h : l' = l
  · rw [if_pos h, h]
    dsimp only
    by_cases h2 : f' = f
    · rw [h2]
      by_cases h3 : f < (net.linkAt l).fibers.length
      · rw [getD_set_self _ _ _ _ h3, if_pos ⟨rfl, rfl, h3⟩]
      · rw [List.set_eq_of_length_le (Nat.le_of_not_lt h3),
          if_neg (fun hcond => h3 hcond.2.2)]
    · rw [getD_set_of_ne _ _ _ _ _ (fun hh => h2 hh.symm),
        if_neg (fun hcond => h2 hcond.2.1)]
  · rw [if_neg h, if_neg (fun hcond => h hcond.1)]

theorem validateAux5_putFiber (net : Network) (l f : Nat) (fib : Fiber)
    (a b c d e : Int) :
    (net.putFiber l f fib).validateAux5 a b c d e =
      net.validateAux5 a b c d e := rfl

theorem validateAux5_valid {net : Network} {l : Nat}
    (hlc : net.linkCounter = (net.links.length : Int))
    (hl : l < net.links.length) (f c m p : Nat) :
    net.validateAux5 (l : Int) (f : Int) (c : Int) (m : Int) (p : Int) = none := by
  unfold validateAux5 getNumberOfLinks
  rw [if_neg (by omega)]
  rw [if_neg (by rw [hlc]; omega)]
  rw [if_neg (by omega), if_neg (by omega), if_neg (by omega), if_neg (by omega)]

theorem setSlotAt_valid {net : Network} {l f : Nat} {b : Band} {c m cnt : Nat}
    (hcell : net.cellOkB l f b c m cnt = true) {p : Nat} (hp : p < cnt) (v : Int) :
    net.setSlotAt (l : Int) (f : Int) (c : Int) b (m : Int) (p : Int) v =
      .ok (net.netWrite l f b c m p v) := by
  obtain ⟨hlc, hl, hf, hfc⟩ := netCellOkB_elim hcell
  unfold setSlotAt
  rw [if_neg (by omega)]
  simp only [Int.toNat_natCast]
  rw [if_neg (by omega)]
  rw [Fiber.setSlot_valid hfc hp v]
  rfl

theorem setSlotAt_oob {net : Network} {l f : Nat} {b : Band} {c m cnt : Nat}
    (hcell : net.cellOkB l f b c m cnt = true) {p : Nat} (hp : cnt ≤ p) (v : Int) :
    net.setSlotAt (l : Int) (f : Int) (c : Int) b (m : Int) (p : Int) v =
      .error .outOfRange := by
  obtain ⟨hlc, hl, hf, hfc⟩ := netCellOkB_elim hcell
  unfold setSlotAt
  rw [if_neg (by omega)]
  simp only [Int.toNat_natCast]
  rw [if_neg (by omega)]
  rw [Fiber.setSlot_oob hfc hp v]

theorem cellOkB_netWrite {net : Network} {l f : Nat} {b : Band} {c m cnt : Nat}
    (hcell : net.cellOkB l f b c m cnt = true) (p : Nat) (v : Int)
    (l0 f0 : Nat) (b0 : Band) (c0 m0 cnt0 : Nat) :
    (net.netWrite l f b c m p v).cellOkB l0 f0 b0 c0 m0 cnt0 =
      net.cellOkB l0 f0 b0 c0 m0 cnt0 := by
  obtain ⟨hlc, hl, hf, hfc⟩ := netCellOkB_elim hcell
  unfold cellOkB netWrite
  rw [linkCounter_putFiber, links_length_putFiber,
      fibersLen_putFiber _ _ hl, fiberAt_putFiber _ hl]
  by_cases h : l0 = l ∧ f0 = f ∧ f < (net.linkAt l).fibers.length
  · rw [if_pos h, h.1, h.2.1, Fiber.cellOkB_writeSlot hfc p v]
  · rw [if_neg h]

theorem isSlotUsed_eval {net : Network} {l f : Nat} {b : Band} {c m cnt : Nat}
    (hcell : net.cellOkB l f b c m cnt = true)
    (c' m' p' : Nat) (b' : Band) :
    net.isSlotUsed (l : Int) (f : Int) (c' : Int) b' (m' : Int) (p' : Int) =
      (net.fiberAt l f).getSlot (c' : Int) b' (m' : Int) (p' : Int) := by
  obtain ⟨hlc, hl, hf, hfc⟩ := netCellOkB_elim hcell
  unfold isSlotUsed
  rw [validateAux5_valid hlc hl]
  dsimp only
  rw [if_neg (by omega)]
  simp only [Int.toNat_natCast]
  rw [if_neg (by omega)]

theorem isSlotUsed_netWrite {net : Network} {l f : Nat} {b : Band} {c m cnt : Nat}
    (hcell : net.cellOkB l f b c m cnt = true) {p : Nat} (hp : p < cnt) (v : Int)
    (l' f' c' m' p' : Nat) (b' : Band) :
    (net.netWrite l f b c m p v).isSlotUsed
        (l' : Int) (f' : Int) (c' : Int) b' (m' : Int) (p' : Int) =
      if l' = l ∧ f' = f ∧ b' = b ∧ c' = c ∧ m' = m ∧ p' = p then .ok v
      else net.isSlotUsed (l' : Int) (f' : Int) (c' : Int) b' (m' : Int) (p' : Int) := by
  obtain ⟨hlc, hl, hf, hfc⟩ := netCellOkB_elim hcell
  have hcell' : (net.netWrite l f b c m p v).cellOkB l f b c m cnt = true := by
    rw [cellOkB_netWrite hcell p v]; exact hcell
  by_cases hlf : l' = l ∧ f' = f
  · rw [hlf.1, hlf.2]
    rw [isSlotUsed_eval hcell', isSlotUsed_eval hcell]
    have hfib : (net.netWrite l f b c m p v).fiberAt l f =
        (net.fiberAt l f).writeSlot b c m p v := by
      unfold netWrite
      rw [fiberAt_putFiber _ hl]
      rw [if_pos ⟨rfl, rfl, hf⟩]
    rw [hfib, Fiber.getSlot_writeSlot hfc hp v c' m' p' b']
    by_cases hcond : b' = b ∧ c' = c ∧ m' = m ∧ p' = p
    · rw [if_pos hcond,
        if_pos ⟨rfl, rfl, hcond.1, hcond.2.1, hcond.2.2.1, hcond.2.2.2⟩]
    · rw [if_neg hcond, if_neg (fun hh =>
        hcond ⟨hh.2.2.1, hh.2.2.2.1, hh.2.2.2.2.1, hh.2.2.2.2.2⟩)]
  · rw [if_neg (fun hh => hlf ⟨hh.1, hh.2.1⟩)]
    unfold netWrite isSlotUsed
    rw [validateAux5_putFiber]
    cases hv : net.validateAux5 (l' : Int) (f' : Int) (c' : Int) (m' : Int) (p' : Int) with
    | some e => rfl
    | none =>
      dsimp only
      rw [links_length_putFiber, fibersLen_putFiber _ _ hl]
      simp only [Int.toNat_natCast]
      by_cases h1 : (l' : Int) < 0 ∨ (net.links.length : Int) ≤ (l' : Int)
      · rw [if_pos h1, if_pos h1]
      · rw [if_neg h1, if_neg h1]
        by_cases h2 : (f' : Int) < 0 ∨
            ((net.linkAt l').fibers.length : Int) ≤ (f' : Int)
        · rw [if_pos h2, if_pos h2]
        · rw [if_neg h2, if_neg h2]
          rw [fiberAt_putFiber _ hl]
          rw [if_neg (fun hcond => hlf ⟨hcond.1, hcond.2.1⟩)]

theorem slotLoop_valid {l f : Nat} {b : Band} {c m cnt : Nat} (v : Int) :
    ∀ (n : Nat) (net : Network) (i : Nat),
      net.cellOkB l f b c m cnt = true → i + n ≤ cnt →
      ∃ net',
        slotLoop (l : Int) (f : Int) (c : Int) b (m : Int) v net i n =
          (none, net') ∧
        net'.cellOkB l f b c m cnt = true ∧
        ∀ (l' f' c' m' p' : Nat) (b' : Band),
          net'.isSlotUsed (l' : Int) (f' : Int) (c' : Int) b' (m' : Int) (p' : Int) =
            if l' = l ∧ f' = f ∧ b' = b ∧ c' = c ∧ m' = m ∧ i ≤ p' ∧ p' < i + n
            then .ok v
            else net.isSlotUsed (l' : Int) (f' : Int) (c' : Int) b' (m' : Int) (p' : Int) := by
  intro n
  induction n with
  | zero =>
    intro net i hcell _
    refine ⟨net, rfl, hcell, fun l' f' c' m' p' b' => ?_⟩
    rw [if_neg (fun hh => by obtain ⟨_, _, _, _, _, h1, h2⟩ := hh; omega)]
  | succ k ih =>
    intro net i hcell hle
    have hp : i < cnt := by omega
    have hstep := setSlotAt_valid hcell hp v
    have hunfold : slotLoop (l : Int) (f : Int) (c : Int) b (m : Int) v net i
        (k + 1) =
        match net.setSlotAt (l : Int) (f : Int) (c : Int) b (m : Int) (i : Int) v with
        | .error e => (some e, net)
        | .ok net1 =>
          slotLoop (l : Int) (f : Int) (c : Int) b (m : Int) v net1 (i + 1) k := rfl
    rw [hunfold, hstep]
    dsimp only
    have hcell1 : (net.netWrite l f b c m i v).cellOkB l f b c m cnt = true := by
      rw [cellOkB_netWrite hcell i v]; exact hcell
    obtain ⟨net', hrun, hcell', hchar⟩ :=
      ih (net.netWrite l f b c m i v) (i + 1) hcell1 (by omega)
    refine ⟨net', hrun, hcell', fun l' f' c' m' p' b' => ?_⟩
    rw [hchar l' f' c' m' p' b']
    rw [isSlotUsed_netWrite hcell hp v l' f' c' m' p' b']
    by_cases hbase : l' = l ∧ f' = f ∧ b' = b ∧ c' = c ∧ m' = m
    · obtain ⟨e1, e2, e3, e4, e5⟩ := hbase
      by_cases hin : i + 1 ≤ p' ∧ p' < i + 1 + k
      · rw [if_pos ⟨e1, e2, e3, e4, e5, hin.1, hin.2⟩,
          if_pos ⟨e1, e2, e3, e4, e5, by omega, by omega⟩]
      · rw [if_neg (fun hh => hin ⟨hh.2.2.2.2.2.1, hh.2.2.2.2.2.2⟩)]
        by_cases hpi : p' = i
        · rw [if_pos ⟨e1, e2, e3, e4, e5, hpi⟩,
            if_pos ⟨e1, e2, e3, e4, e5, by omega, by omega⟩]
        · rw [if_neg (fun hh => hpi hh.2.2.2.2.2),
            if_neg (fun hh => by
              obtain ⟨_, _, _, _, _, hq1, hq2⟩ := hh
              exact hin ⟨by omega, by omega⟩)]
    · rw [if_neg (fun hh =>
          hbase ⟨hh.1, hh.2.1, hh.2.2.1, hh.2.2.2.1, hh.2.2.2.2.1⟩),
        if_neg (fun hh =>
          hbase ⟨hh.1, hh.2.1, hh.2.2.1, hh.2.2.2.1, hh.2.2.2.2.1⟩),
        if_neg (fun hh =>
          hbase ⟨hh.1, hh.2.1, hh.2.2.1, hh.2.2.2.1, hh.2.2.2.2.1⟩)]

theorem slotLoop_partial {l f : Nat} {b : Band} {c m cnt : Nat} (v : Int) :
    ∀ (n : Nat) (net : Network) (i : Nat),
      net.cellOkB l f b c m cnt = true → i ≤ cnt → cnt < i + n →
      ∃ net',
        slotLoop (l : Int) (f : Int) (c : Int) b (m : Int) v net i n =
          (some .outOfRange, net') ∧
        ∀ (l' f' c' m' p' : Nat) (b' : Band),
          net'.isSlotUsed (l' : Int) (f' : Int) (c' : Int) b' (m' : Int) (p' : Int) =
            if l' = l ∧ f' = f ∧ b' = b ∧ c' = c ∧ m' = m ∧ i ≤ p' ∧ p' < cnt
            then .ok v
            else net.isSlotUsed (l' : Int) (f' : Int) (c' : Int) b' (m' : Int) (p' : Int) := by
  intro n
  induction n with
  | zero =>
    intro net i _ hle hlt
    exact absurd hlt (by omega)
  | succ k ih =>
    intro net i hcell hle hlt
    by_cases hic : i < cnt
    · have hstep := setSlotAt_valid hcell hic v
      have hunfold : slotLoop (l : Int) (f : Int) (c : Int) b (m : Int) v net i
          (k + 1) =
          match net.setSlotAt (l : Int) (f : Int) (c : Int) b (m : Int) (i : Int) v with
          | .error e => (some e, net)
          | .ok net1 =>
            slotLoop (l : Int) (f : Int) (c : Int) b (m : Int) v net1 (i + 1) k := rfl
      rw [hunfold, hstep]
      dsimp only
      have hcell1 : (net.netWrite l f b c m i v).cellOkB l f b c m cnt = true := by
        rw [cellOkB_netWrite hcell i v]; exact hcell
      obtain ⟨net', hrun, hchar⟩ :=
        ih (net.netWrite l f b c m i v) (i + 1) hcell1 (by omega) (by omega)
      refine ⟨net', hrun, fun l' f' c' m' p' b' => ?_⟩
      rw [hchar l' f' c' m' p' b']
      rw [isSlotUsed_netWrite hcell hic v l' f' c' m' p' b']
      by_cases hbase : l' = l ∧ f' = f ∧ b' = b ∧ c' = c ∧ m' = m
      · obtain ⟨e1, e2, e3, e4, e5⟩ := hbase
        by_cases hin : i + 1 ≤ p' ∧ p' < cnt
        · rw [if_pos ⟨e1, e2, e3, e4, e5, hin.1, hin.2⟩,
            if_pos ⟨e1, e2, e3, e4, e5, by omega, by omega⟩]
        · rw [if_neg (fun hh => hin ⟨hh.2.2.2.2.2.1, hh.2.2.2.2.2.2⟩)]
          by_cases hpi : p' = i
          · rw [if_pos ⟨e1, e2, e3, e4, e5, hpi⟩,
              if_pos ⟨e1, e2, e3, e4, e5, by omega, by omega⟩]
          · rw [if_neg (fun hh => hpi hh.2.2.2.2.2),
              if_neg (fun hh => by
                obtain ⟨_, _, _, _, _, hq1, hq2⟩ := hh
                exact hin ⟨by omega, by omega⟩)]
      · rw [if_neg (fun hh =>
            hbase ⟨hh.1, hh.2.1, hh.2.2.1, hh.2.2.2.1, hh.2.2.2.2.1⟩),
          if_neg (fun hh =>
            hbase ⟨hh.1, hh.2.1, hh.2.2.1, hh.2.2.2.1, hh.2.2.2.2.1⟩),
          if_neg (fun hh =>
            hbase ⟨hh.1, hh.2.1, hh.2.2.1, hh.2.2.2.1, hh.2.2.2.2.1⟩)]
    · have hieq : cnt ≤ i := by omega
      have hstep := setSlotAt_oob hcell hieq v
      have hunfold : slotLoop (l : Int) (f : Int) (c : Int) b (m : Int) v net i
          (k + 1) =
          match net.setSlotAt (l : Int) (f : Int) (c : Int) b (m : Int) (i : Int) v with
          | .error e => (some e, net)
          | .ok net1 =>
            slotLoop (l : Int) (f : Int) (c : Int) b (m : Int) v net1 (i + 1) k := rfl
      rw [hunfold, hstep]
      refine ⟨net, rfl, fun l' f' c' m' p' b' => ?_⟩
      rw [if_neg (fun hh => by obtain ⟨_, _, _, _, _, h1, h2⟩ := hh; omega)]

end Network

/-! ### Slot-façade claims -/

/-- **C2.** For every fiber coordinate `(link, fiber, core, band, mode)` of a
consistent network and every range with `0 ≤ from < to ≤ slot_count`, after
`use_slots(link, fiber, core, band, mode, from, to, owner)` succeeds:
`is_slot_used` returns `owner` at every position in `[from, to)`, every slot
position outside `[from, to)` keeps the value it had before the call, and
every other `(core, band, mode)` cell of the fiber keeps its value. -/
theorem useSlots_marks_range (net : Network) (l f c m : Nat) (b : Band)
    (cnt sFrom sTo : Nat) (owner : Int)
    (hcell : net.cellOkB l f b c m cnt = true)
    (h1 : sFrom < sTo) (h2 : sTo ≤ cnt) :
    ∃ net',
      net.useSlots (l : Int) (f : Int) (c : Int) b (m : Int)
        (sFrom : Int) (sTo : Int) owner = (none, net') ∧
      (∀ p : Nat, sFrom ≤ p → p < sTo →
        net'.isSlotUsed (l : Int) (f : Int) (c : Int) b (m : Int) (p : Int) =
          .ok owner) ∧
      (∀ p : Nat, p < sFrom ∨ sTo ≤ p →
        net'.isSlotUsed (l : Int) (f : Int) (c : Int) b (m : Int) (p : Int) =
          net.isSlotUsed (l : Int) (f : Int) (c : Int) b (m : Int) (p : Int)) ∧
      (∀ (c' m' p' : Nat) (b' : Band), ¬(b' = b ∧ c' = c ∧ m' = m) →
        net'.isSlotUsed (l : Int) (f : Int) (c' : Int) b' (m' : Int) (p' : Int) =
          net.isSlotUsed (l : Int) (f : Int) (c' : Int) b' (m' : Int) (p' : Int)) := by
  obtain ⟨hlc, hl, hf, hfc⟩ := Network.netCellOkB_elim hcell
  have hval : net.validateAux6 (l : Int) (f : Int) (c : Int) (m : Int)
      (sFrom : Int) (sTo : Int) = none := by
    unfold Network.validateAux6
    rw [Network.validateAux5_valid hlc hl]
    rw [if_neg (by omega)]
  obtain ⟨net', hrun, _, hchar⟩ :=
    Network.slotLoop_valid owner (sTo - sFrom) net sFrom hcell (by omega)
  have hU : net.useSlots (l : Int) (f : Int) (c : Int) b (m : Int)
      (sFrom : Int) (sTo : Int) owner = (none, net') := by
    unfold Network.useSlots
    rw [hval]
    dsimp only
    rw [Int.toNat_natCast, Int.toNat_sub, hrun]
  refine ⟨net', hU, ?_, ?_, ?_⟩
  · intro p hp1 hp2
    rw [hchar l f c m p b]
    rw [if_pos ⟨rfl, rfl, rfl, rfl, rfl, hp1, by omega⟩]
  · intro p hp
    rw [hchar l f c m p b]
    rw [if_neg (fun hh => by
      obtain ⟨_, _, _, _, _, hq1, hq2⟩ := hh
      omega)]
  · intro c' m' p' b' hne
    rw [hchar l f c' m' p' b']
    rw [if_neg (fun hh => hne ⟨hh.2.2.1, hh.2.2.2.1, hh.2.2.2.2.1⟩)]

/-- Witness for C2 on the concrete two-node network: marking `[0, 8)` with
owner 7 makes position 3 read back as 7. -/
theorem useSlots_marks_range_witness :
    ∃ net', sampleNet.useSlots 0 0 0 Band.C 0 0 8 7 = (none, net') ∧
      net'.isSlotUsed 0 0 0 Band.C 0 3 = .ok 7 ∧
      net'.isSlotUsed 0 0 0 Band.C 0 8 = sampleNet.isSlotUsed 0 0 0 Band.C 0 8 := by
  obtain ⟨net', h0, h1, h2, _⟩ :=
    useSlots_marks_range sampleNet 0 0 0 0 Band.C 320 0 8 7 (by decide)
      (by decide) (by decide)
  exact ⟨net', h0, h1 3 (by decide) (by decide), h2 8 (Or.inr (by decide))⟩

/-- **C3 (counterexample).** On a network whose only fiber cell has 2 slots,
`use_slots(0, 0, 0, C, 0, 0, 3, 7)` raises `OutOfRange` (the range's upper
end exceeds the slot count), yet after the failed call slot 0 holds 7 instead
of its pre-call value 0: the claimed strong exception safety does not hold
for mid-loop failures. -/
theorem useSlots_error_counterexample :
    (tinyNet.useSlots 0 0 0 Band.C 0 0 3 7).1 = some Err.outOfRange ∧
    (tinyNet.useSlots 0 0 0 Band.C 0 0 3 7).2.isSlotUsed 0 0 0 Band.C 0 0 =
      .ok 7 ∧
    tinyNet.isSlotUsed 0 0 0 Band.C 0 0 = .ok 0 := by decide

/-- **C3 (amended).** `use_slots`/`unuse_slots` leave every slot unchanged
whenever the error is raised by the pre-loop validation — in particular a
range with `from ≥ to` (on otherwise valid arguments) fails with
`InvalidArgument` and changes nothing — but when the upper end of the range
exceeds the slot count of the targeted cell (with `from` in range), the
positions `[from, slot_count)` are overwritten before `OutOfRange` is
raised. -/
theorem useSlots_error_states (net : Network) (l f c m : Nat) (b : Band)
    (cnt : Nat) (owner : Int)
    (hcell : net.cellOkB l f b c m cnt = true) :
    (∀ (il fi co mo sf st ow : Int) (e : Err),
      net.validateAux6 il fi co mo sf st = some e →
        net.useSlots il fi co b mo sf st ow = (some e, net) ∧
        net.unuseSlots il fi co b mo sf st = (some e, net)) ∧
    (∀ sf st : Int, st ≤ sf → net.validateAux5 (l : Int) (f : Int) (c : Int)
        (m : Int) sf = none →
        net.useSlots (l : Int) (f : Int) (c : Int) b (m : Int) sf st owner =
          (some .invalidArgument, net)) ∧
    (∀ sFrom sTo : Nat, sFrom < cnt → cnt < sTo →
      (∃ net',
        net.useSlots (l : Int) (f : Int) (c : Int) b (m : Int)
          (sFrom : Int) (sTo : Int) owner = (some .outOfRange, net') ∧
        (∀ p : Nat, sFrom ≤ p → p < cnt →
          net'.isSlotUsed (l : Int) (f : Int) (c : Int) b (m : Int) (p : Int) =
            .ok owner) ∧
        (∀ p : Nat, p < sFrom →
          net'.isSlotUsed (l : Int) (f : Int) (c : Int) b (m : Int) (p : Int) =
            net.isSlotUsed (l : Int) (f : Int) (c : Int) b (m : Int) (p : Int)))) := by
  refine ⟨?_, ?_, ?_⟩
  · intro il fi co mo sf st ow e h
    constructor
    · unfold Network.useSlots
      rw [h]
    · unfold Network.unuseSlots
      rw [h]
  · intro sf st hle h5
    unfold Network.useSlots Network.validateAux6
    rw [h5]
    dsimp only
    rw [if_pos hle]
  · intro sFrom sTo hlt hgt
    have hval : net.validateAux6 (l : Int) (f : Int) (c : Int) (m : Int)
        (sFrom : Int) (sTo : Int) = none := by
      obtain ⟨hlc, hl, hf, hfc⟩ := Network.netCellOkB_elim hcell
      unfold Network.validateAux6
      rw [Network.validateAux5_valid hlc hl]
      rw [if_neg (by omega)]
    obtain ⟨net', hrun, hchar⟩ :=
      Network.slotLoop_partial owner (sTo - sFrom) net sFrom hcell (by omega)
        (by omega)
    have hU : net.useSlots (l : Int) (f : Int) (c : Int) b (m : Int)
        (sFrom : Int) (sTo : Int) owner = (some .outOfRange, net') := by
      unfold Network.useSlots
      rw [hval]
      dsimp only
      rw [Int.toNat_natCast, Int.toNat_sub, hrun]
    refine ⟨net', hU, ?_, ?_⟩
    · intro p hp1 hp2
      rw [hchar l f c m p b]
      rw [if_pos ⟨rfl, rfl, rfl, rfl, rfl, hp1, hp2⟩]
    · intro p hp
      rw [hchar l f c m p b]
      rw [if_neg (fun hh => by
        obtain ⟨_, _, _, _, _, hq1, hq2⟩ := hh
        omega)]

/-- Witness for the amended C3 on the 2-slot network: `from ≥ to` yields
`InvalidArgument` with the state unchanged, and the overrun case stops with
`OutOfRange` after writing `[0, 2)`. -/
theorem useSlots_error_states_witness :
    tinyNet.useSlots 0 0 0 Band.C 0 5 2 7 = (some Err.invalidArgument, tinyNet) ∧
    ∃ net', tinyNet.useSlots 0 0 0 Band.C 0 0 3 7 = (some Err.outOfRange, net') ∧
      net'.isSlotUsed 0 0 0 Band.C 0 1 = .ok 7 := by
  obtain ⟨hpre, hfromto, hover⟩ :=
    useSlots_error_states tinyNet 0 0 0 0 Band.C 2 7 (by decide)
  refine ⟨hfromto 5 2 (by decide) (by decide), ?_⟩
  obtain ⟨net', hrun, hmarked, _⟩ := hover 0 3 (by decide) (by decide)
  exact ⟨net', hrun, hmarked 1 (by decide) (by decide)⟩

/-- **C9.** Starting from a fiber whose slots are all free (`0`), marking any
valid range with `use_slots` and then clearing the same range with
`unuse_slots` leaves every cell of that fiber free. -/
theorem useSlots_unuseSlots_roundtrip (net : Network) (l f c m : Nat)
    (b : Band) (cnt sFrom sTo : Nat) (x : Int)
    (hcell : net.cellOkB l f b c m cnt = true)
    (h1 : sFrom < sTo) (h2 : sTo ≤ cnt)
    (hfree : (net.fiberAt l f).allSlotsZero = true) :
    ∃ net₁ net₂,
      net.useSlots (l : Int) (f : Int) (c : Int) b (m : Int)
        (sFrom : Int) (sTo : Int) x = (none, net₁) ∧
      net₁.unuseSlots (l : Int) (f : Int) (c : Int) b (m : Int)
        (sFrom : Int) (sTo : Int) = (none, net₂) ∧
      ∀ (c' m' p' : Nat) (b' : Band) (cnt' : Nat),
        net.cellOkB l f b' c' m' cnt' = true → p' < cnt' →
        net₂.isSlotUsed (l : Int) (f : Int) (c' : Int) b' (m' : Int) (p' : Int) =
          .ok 0 := by
  obtain ⟨hlc, hl, hf, hfc⟩ := Network.netCellOkB_elim hcell
  have hval : net.validateAux6 (l : Int) (f : Int) (c : Int) (m : Int)
      (sFrom : Int) (sTo : Int) = none := by
    unfold Network.validateAux6
    rw [Network.validateAux5_valid hlc hl]
    rw [if_neg (by omega)]
  obtain ⟨net₁, hrun1, hcell1, hchar1⟩ :=
    Network.slotLoop_valid x (sTo - sFrom) net sFrom hcell (by omega)
  have hU : net.useSlots (l : Int) (f : Int) (c : Int) b (m : Int)
      (sFrom : Int) (sTo : Int) x = (none, net₁) := by
    unfold Network.useSlots
    rw [hval]
    dsimp only
    rw [Int.toNat_natCast, Int.toNat_sub, hrun1]
  have hval1 : net₁.validateAux6 (l : Int) (f : Int) (c : Int) (m : Int)
      (sFrom : Int) (sTo : Int) = none := by
    obtain ⟨hlc1, hl1, _, _⟩ := Network.netCellOkB_elim hcell1
    unfold Network.validateAux6
    rw [Network.validateAux5_valid hlc1 hl1]
    rw [if_neg (by omega)]
  obtain ⟨net₂, hrun2, _, hchar2⟩ :=
    Network.slotLoop_valid 0 (sTo - sFrom) net₁ sFrom hcell1 (by omega)
  have hUn : net₁.unuseSlots (l : Int) (f : Int) (c : Int) b (m : Int)
      (sFrom : Int) (sTo : Int) = (none, net₂) := by
    unfold Network.unuseSlots
    rw [hval1]
    dsimp only
    rw [Int.toNat_natCast, Int.toNat_sub, hrun2]
  refine ⟨net₁, net₂, hU, hUn, ?_⟩
  intro c' m' p' b' cnt' hcell' hp'
  obtain ⟨_, _, _, hfc'⟩ := Network.netCellOkB_elim hcell'
  have horig : net.isSlotUsed (l : Int) (f : Int) (c' : Int) b' (m' : Int)
      (p' : Int) = .ok 0 := by
    rw [Network.isSlotUsed_eval hcell' c' m' p' b']
    rw [Fiber.getSlot_valid hfc' hp']
    rw [Fiber.allSlotsZero_getSlotD hfree]
  rw [hchar2 l f c' m' p' b']
  by_cases hcond : l = l ∧ f = f ∧ b' = b ∧ c' = c ∧ m' = m ∧ sFrom ≤ p' ∧
      p' < sFrom + (sTo - sFrom)
  · rw [if_pos hcond]
  · rw [if_neg hcond]
    rw [hchar1 l f c' m' p' b']
    rw [if_neg (fun hh => hcond hh)]
    exact horig

/-- Witness for C9 on the concrete two-node network. -/
theorem useSlots_unuseSlots_roundtrip_witness :
    ∃ net₁ net₂,
      sampleNet.useSlots 0 0 0 Band.C 0 2 10 42 = (none, net₁) ∧
      net₁.unuseSlots 0 0 0 Band.C 0 2 10 = (none, net₂) ∧
      net₂.isSlotUsed 0 0 0 Band.C 0 5 = .ok 0 := by
  obtain ⟨net₁, net₂, hA, hB, hC⟩ :=
    useSlots_unuseSlots_roundtrip sampleNet 0 0 0 0 Band.C 320 2 10 42
      (by decide) (by decide) (by decide) (by decide)
  exact ⟨net₁, net₂, hA, hB, hC 0 0 5 Band.C 320 (by decide) (by decide)⟩

/-! ### Structural-mutation claims -/

/-- **C7.** On any fiber cell, marking slot 0 with owner 42 through
`use_slots(…, 0, 1, 42)` makes a subsequent `set_cores([[100],[100]])` fail
with `Conflict` (`std::runtime_error`) while the occupied cell still reads
42; in general `set_cores(cfg)` fails whenever any slot of any band is
occupied, and `set_modes(core, band, slots_per_mode)` fails whenever any
slot of that (core, band) scope is occupied. -/
theorem setCores_setModes_conflict :
    (∀ (net : Network) (l f c m cnt : Nat) (b : Band),
      net.cellOkB l f b c m cnt = true → 0 < cnt →
      ∃ net',
        net.useSlots (l : Int) (f : Int) (c : Int) b (m : Int) 0 1 42 =
          (none, net') ∧
        (net'.fiberAt l f).setCores [[100], [100]] = .error .runtimeError ∧
        net'.isSlotUsed (l : Int) (f : Int) (c : Int) b (m : Int) 0 = .ok 42) ∧
    (∀ (g : Fiber) (cfg : List (List Int)),
      cfg.isEmpty = false →
      cfg.any (fun core => core.isEmpty) = false →
      cfg.any (fun core => core.any (fun s => s < 1)) = false →
      g.resources.any (fun q => q.2.any (fun cm => cm.any (fun sl =>
        sl.any (fun s => s != 0)))) = true →
      g.setCores cfg = .error .runtimeError) ∧
    (∀ (g : Fiber) (core : Nat) (b : Band) (M : List (List (List Int)))
        (spm : List Int),
      core < g.getNumberOfCores → g.findBand b = some M →
      spm.isEmpty = false → spm.any (fun s => s < 1) = false →
      (M.getD core []).any (fun sl => sl.any (fun s => s != 0)) = true →
      g.setModes (core : Int) b spm = .error .runtimeError) := by
  refine ⟨?_,
    fun g cfg h1 h2 h3 hocc => Fiber.setCores_occupied h1 h2 h3 hocc,
    fun g core b M spm hcore hM h1 h2 hocc =>
      Fiber.setModes_occupied hcore hM h1 h2 hocc⟩
  intro net l f c m cnt b hcell hcnt
  obtain ⟨hlc, hl, hf, hfc⟩ := Network.netCellOkB_elim hcell
  obtain ⟨net', hrun, hcell', hchar⟩ :=
    Network.slotLoop_valid 42 1 net 0 hcell (by omega)
  have hval : net.validateAux6 (l : Int) (f : Int) (c : Int) (m : Int) 0 1 =
      none := by
    unfold Network.validateAux6
    have h5 : net.validateAux5 (l : Int) (f : Int) (c : Int) (m : Int)
        (0 : Int) = none := Network.validateAux5_valid hlc hl f c m 0
    rw [h5]
    norm_num
  have hU : net.useSlots (l : Int) (f : Int) (c : Int) b (m : Int) 0 1 42 =
      (none, net') := by
    unfold Network.useSlots
    rw [hval]
    exact hrun
  have hread : net'.isSlotUsed (l : Int) (f : Int) (c : Int) b (m : Int)
      ((0 : Nat) : Int) = .ok 42 := by
    rw [hchar l f c m 0 b]
    rw [if_pos ⟨rfl, rfl, rfl, rfl, rfl, Nat.le_refl 0, by omega⟩]
  have hfc' := (Network.netCellOkB_elim hcell').2.2.2
  have heval := Network.isSlotUsed_eval hcell' c m 0 b
  have hgs := Fiber.getSlot_valid hfc' (show (0 : Nat) < cnt from hcnt)
  have hval42 : (net'.fiberAt l f).getSlotD c b m 0 = 42 := by
    have hchain := (heval.symm.trans hread)
    rw [hgs] at hchain
    injection hchain
  have hocc := Fiber.occupied_of_cell hfc' hcnt (by rw [hval42]; decide)
  refine ⟨net', hU, ?_, hread⟩
  exact Fiber.setCores_occupied (by decide) (by decide) (by decide) hocc

/-- Witness for C7 on the 2-slot network. -/
theorem setCores_setModes_conflict_witness :
    ∃ net', tinyNet.useSlots 0 0 0 Band.C 0 0 1 42 = (none, net') ∧
      (net'.fiberAt 0 0).setCores [[100], [100]] = .error .runtimeError ∧
      tinyNet.isSlotUsed 0 0 0 Band.C 0 0 = .ok 0 := by
  obtain ⟨h1, _, _⟩ := setCores_setModes_conflict
  obtain ⟨net', hU, hSC, _⟩ := h1 tinyNet 0 0 0 0 2 Band.C (by decide) (by decide)
  exact ⟨net', hU, hSC, by decide⟩

/-- **C10.** For every Link with at least one addressable slot all of whose
fibers' stored slot values are the default free value `0`,
`usage_percentage()` returns `100`: the traversal counts a slot as used
whenever its value differs from `-1`, while the free sentinel actually
written by construction, `resetFiber`, and `unuseSlots` is `0`. -/
theorem getUsagePercentage_all_free (link : Link)
    (hfree : link.fibers.all Fiber.allSlotsZero = true)
    (hpos : 0 < link.visitedSlotVals.length) :
    link.getUsagePercentage = 100 := by
  have hall : ∀ v ∈ link.visitedSlotVals, v = 0 := by
    intro v hv
    unfold Link.visitedSlotVals at hv
    rw [List.mem_flatMap] at hv
    obtain ⟨fiber, hfib, hv⟩ := hv
    rw [List.mem_flatMap] at hv
    obtain ⟨band, _, hv⟩ := hv
    rw [List.mem_flatMap] at hv
    obtain ⟨core, _, hv⟩ := hv
    rw [List.mem_flatMap] at hv
    obtain ⟨mode, _, hv⟩ := hv
    rw [List.mem_map] at hv
    obtain ⟨s, _, hv⟩ := hv
    rw [← hv]
    exact Fiber.allSlotsZero_getSlotD ((List.all_eq_true.mp hfree) fiber hfib)
  unfold Link.getUsagePercentage
  have hfilter : link.visitedSlotVals.filter (fun v => v != -1) =
      link.visitedSlotVals := by
    rw [List.filter_eq_self]
    intro v hv
    rw [hall v hv]
    decide
  rw [hfilter]
  rw [if_neg (by omega)]
  rw [div_self (by
    have : ((link.visitedSlotVals.length : Nat) : Rat) ≠ 0 := by
      exact_mod_cast Nat.pos_iff_ne_zero.mp hpos
    exact this)]
  norm_num

/-- Witness for C10: a fresh 320-slot link reports 100 % usage. -/
theorem getUsagePercentage_all_free_witness :
    link320.getUsagePercentage = 100 :=
  getUsagePercentage_all_free link320 (by decide) (by decide)

/-- **C8 (counterexample).** Adding a node with a mismatched id fails with
`std::runtime_error` (the `Conflict` class), not with `InvalidArgument` as
claimed. -/
theorem addNode_error_kind_counterexample :
    Network.init.addNode ⟨1, 0⟩ = .error Err.runtimeError ∧
    Err.runtimeError ≠ Err.invalidArgument := by
  exact ⟨rfl, by decide⟩

/-- **C8 (amended).** `add_node(node)` succeeds exactly when `node.id` equals
the current node count and `add_link(link)` exactly when `link.id` equals the
current link count, failing with `std::runtime_error` (Conflict) on a
mismatched id; consequently, after any sequence of `add_node`/`add_link`
operations, the node and link id sequences are dense, i.e. `[0, 1, …, n−1]`. -/
theorem addNode_addLink_dense_ids :
    (∀ (net : Network) (nd : Node),
      (∃ net', net.addNode nd = .ok net') ↔ nd.id = net.nodeCounter) ∧
    (∀ (net : Network) (nd : Node), nd.id ≠ net.nodeCounter →
      net.addNode nd = .error .runtimeError) ∧
    (∀ (net : Network) (lk : Link),
      (∃ net', net.addLink lk = .ok net') ↔ lk.id = net.linkCounter) ∧
    (∀ (net : Network) (lk : Link), lk.id ≠ net.linkCounter →
      net.addLink lk = .error .runtimeError) ∧
    (∀ net : Network, Built net →
      net.nodes.map Node.id = (List.range net.nodes.length).map Int.ofNat ∧
      net.links.map Link.id = (List.range net.links.length).map Int.ofNat) := by
  have haux : ∀ net : Network, Built net →
      net.nodeCounter = Int.ofNat net.nodes.length ∧
      net.linkCounter = Int.ofNat net.links.length ∧
      net.nodes.map Node.id = (List.range net.nodes.length).map Int.ofNat ∧
      net.links.map Link.id = (List.range net.links.length).map Int.ofNat := by
    intro net hB
    induction hB with
    | base => exact ⟨rfl, rfl, rfl, rfl⟩
    | node hB hstep ih =>
      rename_i n n' nd
      unfold Network.addNode at hstep
      by_cases hid : nd.id = n.nodeCounter
      · rw [if_neg (fun hh => hh hid)] at hstep
        have hrec := Except.ok.inj hstep
        obtain ⟨ih1, ih2, ih3, ih4⟩ := ih
        subst hrec
        refine ⟨?_, ih2, ?_, ih4⟩
        · dsimp only
          rw [ih1]
          simp only [List.length_append, List.length_cons, List.length_nil]
          rfl
        · dsimp only
          rw [List.map_append, ih3]
          have hlen : (n.nodes ++ [nd]).length = n.nodes.length + 1 := by simp
          rw [hlen, List.range_succ, List.map_append]
          simp only [List.map_cons, List.map_nil]
          rw [hid, ih1]
      · rw [if_pos hid] at hstep
        exact Except.noConfusion hstep
    | link hB hstep ih =>
      rename_i n n' lk
      unfold Network.addLink at hstep
      by_cases hid : lk.id = n.linkCounter
      · rw [if_neg (fun hh => hh hid)] at hstep
        have hrec := Except.ok.inj hstep
        obtain ⟨ih1, ih2, ih3, ih4⟩ := ih
        subst hrec
        refine ⟨ih1, ?_, ih3, ?_⟩
        · dsimp only
          rw [ih2]
          simp only [List.length_append, List.length_cons, List.length_nil]
          rfl
        · dsimp only
          rw [List.map_append, ih4]
          have hlen : (n.links ++ [lk]).length = n.links.length + 1 := by simp
          rw [hlen, List.range_succ, List.map_append]
          simp only [List.map_cons, List.map_nil]
          rw [hid, ih2]
      · rw [if_pos hid] at hstep
        exact Except.noConfusion hstep
  refine ⟨?_, ?_, ?_, ?_,
    fun net hB => ⟨(haux net hB).2.2.1, (haux net hB).2.2.2⟩⟩
  · intro net nd
    constructor
    · rintro ⟨net', h⟩
      by_cases hid : nd.id = net.nodeCounter
      · exact hid
      · unfold Network.addNode at h
        rw [if_pos hid] at h
        exact Except.noConfusion h
    · intro hid
      exact ⟨_, by unfold Network.addNode; rw [if_neg (fun hh => hh hid)]⟩
  · intro net nd hid
    unfold Network.addNode
    rw [if_pos hid]
  · intro net lk
    constructor
    · rintro ⟨net', h⟩
      by_cases hid : lk.id = net.linkCounter
      · exact hid
      · unfold Network.addLink at h
        rw [if_pos hid] at h
        exact Except.noConfusion h
    · intro hid
      exact ⟨_, by unfold Network.addLink; rw [if_neg (fun hh => hh hid)]⟩
  · intro net lk hid
    unfold Network.addLink
    rw [if_pos hid]

/-- Witness for the amended C8: adding node 0 to a fresh network succeeds,
and a concretely built network has dense node and link ids. -/
theorem addNode_addLink_dense_ids_witness :
    (∃ net', Network.init.addNode ⟨0, 0⟩ = .ok net') ∧
    bn3.nodes.map Node.id = (List.range bn3.nodes.length).map Int.ofNat ∧
    bn3.links.map Link.id = (List.range bn3.links.length).map Int.ofNat := by
  obtain ⟨hiff, _, _, _, hdense⟩ := addNode_addLink_dense_ids
  have h1 : Network.init.addNode ⟨0, 0⟩ = .ok bn1 := rfl
  have h2 : bn1.addNode ⟨1, 0⟩ = .ok bn2 := rfl
  have h3 : bn2.addLink ⟨0, 100, -1, -1, [fiber2]⟩ = .ok bn3 := rfl
  have hb : Built bn3 :=
    Built.link (Built.node (Built.node Built.base h1) h2) h3
  exact ⟨(hiff Network.init ⟨0, 0⟩).mpr (by decide),
    (hdense bn3 hb).1, (hdense bn3 hb).2⟩

/-! ### Adaptive modulation selection (claim C6) -/

/-- One step of the `getAdaptiveModulation` loop preserves the selection
invariant, provided every defined slot requirement is below the `INT_MAX`
sentinel used to initialise `minSlots`. -/
theorem amStep_inv (mods : List ModulationFormat) (band : Band) (L : Rat)
    (H : ∀ j mf s, mods.get? j = some mf →
      mf.getRequiredSlots band = .ok s → s < 2147483647)
    (k : Nat) (st : Int × Int × Rat) (mf : ModulationFormat)
    (hk : mods.get? k = some mf)
    (hinv : BitRate.amInv mods band L k st) :
    BitRate.amInv mods band L (k + 1) (BitRate.amStep band L st k mf) := by
  have hmf_eq : ∀ mf', mods.get? k = some mf' → mf' = mf := by
    intro mf' h
    rw [hk] at h
    exact (Option.some.inj h).symm
  rcases hr : mf.getReach band with e | reach
  · -- the reach getter throws: the modulation is skipped
    have hskip : BitRate.amStep band L st k mf = st := by
      unfold BitRate.amStep
      rcases hs2 : mf.getRequiredSlots band with e2 | s2 <;> rw [hr]
    rw [hskip]
    have hnotfeas : ¬ BitRate.feasIdx mods band L k := by
      rintro ⟨mf', s', r', hg, _, hr', _⟩
      rw [hmf_eq mf' hg, hr] at hr'
      exact Except.noConfusion hr'
    rcases hinv with ⟨hst, hnone⟩ | ⟨i, hik, mfb, s, r, hgi, hsi, hri, hLi, hst, hopt⟩
    · refine Or.inl ⟨hst, fun j hj => ?_⟩
      rcases Nat.lt_succ_iff_lt_or_eq.mp hj with hj' | hj'
      · exact hnone j hj'
      · exact hj' ▸ hnotfeas
    · refine Or.inr ⟨i, Nat.lt_succ_of_lt hik, mfb, s, r, hgi, hsi, hri, hLi, hst,
        fun j hj mf' s' r' hg hs' hr' hL' => ?_⟩
      rcases Nat.lt_succ_iff_lt_or_eq.mp hj with hj' | hj'
      · exact hopt j hj' mf' s' r' hg hs' hr' hL'
      · exact absurd ⟨mf', s', r', hj' ▸ hg, hs', hr', hL'⟩ hnotfeas
  · rcases hs : mf.getRequiredSlots band with e | slots
    · -- the slots getter throws: the modulation is skipped
      have hskip : BitRate.amStep band L st k mf = st := by
        unfold BitRate.amStep
        rw [hr, hs]
      rw [hskip]
      have hnotfeas : ¬ BitRate.feasIdx mods band L k := by
        rintro ⟨mf', s', r', hg, hs', _, _⟩
        rw [hmf_eq mf' hg, hs] at hs'
        exact Except.noConfusion hs'
      rcases hinv with ⟨hst, hnone⟩ | ⟨i, hik, mfb, s, r, hgi, hsi, hri, hLi, hst, hopt⟩
      · refine Or.inl ⟨hst, fun j hj => ?_⟩
        rcases Nat.lt_succ_iff_lt_or_eq.mp hj with hj' | hj'
        · exact hnone j hj'
        · exact hj' ▸ hnotfeas
      · refine Or.inr ⟨i, Nat.lt_succ_of_lt hik, mfb, s, r, hgi, hsi, hri, hLi, hst,
          fun j hj mf' s' r' hg hs' hr' hL' => ?_⟩
        rcases Nat.lt_succ_iff_lt_or_eq.mp hj with hj' | hj'
        · exact hopt j hj' mf' s' r' hg hs' hr' hL'
        · exact absurd ⟨mf', s', r', hj' ▸ hg, hs', hr', hL'⟩ hnotfeas
    · -- both getters succeed
      have hstep : BitRate.amStep band L st k mf =
          if L ≤ reach then
            if slots < st.2.1 ∨ (slots = st.2.1 ∧ st.2.2 < reach) then
              ((k : Int), slots, reach)
            else st
          else st := by
        unfold BitRate.amStep
        rw [hr, hs]
      by_cases hL : L ≤ reach
      · -- the modulation is feasible at index k
        rw [hstep, if_pos hL]
        have hfeask : ∀ mf' s' r', mods.get? k = some mf' →
            mf'.getRequiredSlots band = .ok s' → mf'.getReach band = .ok r' →
            s' = slots ∧ r' = reach := by
          intro mf' s' r' hg hs' hr'
          rw [hmf_eq mf' hg, hs] at hs'
          rw [hmf_eq mf' hg, hr] at hr'
          exact ⟨(Except.ok.inj hs').symm, (Except.ok.inj hr').symm⟩
        rcases hinv with ⟨hst, hnone⟩ | ⟨i, hik, mfb, s, r, hgi, hsi, hri, hLi, hst, hopt⟩
        · -- nothing was feasible yet: the candidate is always taken
          have hcond : slots < st.2.1 ∨ (slots = st.2.1 ∧ st.2.2 < reach) := by
            left
            rw [hst]
            dsimp only
            exact H k mf slots hk hs
          rw [if_pos hcond]
          refine Or.inr ⟨k, Nat.lt_succ_self k, mf, slots, reach, hk, hs, hr, hL, rfl,
            fun j hj mf' s' r' hg hs' hr' hL' => ?_⟩
          rcases Nat.lt_succ_iff_lt_or_eq.mp hj with hj' | hj'
          · exact absurd ⟨mf', s', r', hg, hs', hr', hL'⟩ (hnone j hj')
          · obtain ⟨hes, her⟩ := hfeask mf' s' r' (hj' ▸ hg) hs' hr'
            exact ⟨le_of_eq hes.symm, fun _ => le_of_eq her⟩
        · rw [hst]
          dsimp only
          by_cases hcond : slots < s ∨ (slots = s ∧ r < reach)
          · -- the candidate improves on the running best
            rw [if_pos hcond]
            refine Or.inr ⟨k, Nat.lt_succ_self k, mf, slots, reach, hk, hs, hr, hL, rfl,
              fun j hj mf' s' r' hg hs' hr' hL' => ?_⟩
            rcases Nat.lt_succ_iff_lt_or_eq.mp hj with hj' | hj'
            · obtain ⟨h1, h2⟩ := hopt j hj' mf' s' r' hg hs' hr' hL'
              rcases hcond with hlt | ⟨heq, hlt⟩
              · exact ⟨le_of_lt (lt_of_lt_of_le hlt h1),
                  fun he => absurd (he ▸ h1) (not_le.mpr hlt)⟩
              · exact ⟨heq ▸ h1, fun he => le_of_lt (lt_of_le_of_lt (h2 (heq ▸ he)) hlt)⟩
            · obtain ⟨hes, her⟩ := hfeask mf' s' r' (hj' ▸ hg) hs' hr'
              exact ⟨le_of_eq hes.symm, fun _ => le_of_eq her⟩
          · -- the candidate does not improve: the old best is kept
            rw [if_neg hcond]
            push_neg at hcond
            refine Or.inr ⟨i, Nat.lt_succ_of_lt hik, mfb, s, r, hgi, hsi, hri, hLi, rfl,
              fun j hj mf' s' r' hg hs' hr' hL' => ?_⟩
            rcases Nat.lt_succ_iff_lt_or_eq.mp hj with hj' | hj'
            · exact hopt j hj' mf' s' r' hg hs' hr' hL'
            · obtain ⟨hes, her⟩ := hfeask mf' s' r' (hj' ▸ hg) hs' hr'
              exact ⟨hes ▸ hcond.1, fun he => her ▸ hcond.2 (hes.symm ▸ he)⟩
      · -- insufficient reach: the modulation is skipped
        rw [hstep, if_neg hL]
        have hnotfeas : ¬ BitRate.feasIdx mods band L k := by
          rintro ⟨mf', s', r', hg, _, hr', hL'⟩
          rw [hmf_eq mf' hg, hr] at hr'
          exact hL (le_of_le_of_eq hL' (Except.ok.inj hr').symm)
        rcases hinv with ⟨hst, hnone⟩ | ⟨i, hik, mfb, s, r, hgi, hsi, hri, hLi, hst, hopt⟩
        · refine Or.inl ⟨hst, fun j hj => ?_⟩
          rcases Nat.lt_succ_iff_lt_or_eq.mp hj with hj' | hj'
          · exact hnone j hj'
          · exact hj' ▸ hnotfeas
        · refine Or.inr ⟨i, Nat.lt_succ_of_lt hik, mfb, s, r, hgi, hsi, hri, hLi, hst,
            fun j hj mf' s' r' hg hs' hr' hL' => ?_⟩
          rcases Nat.lt_succ_iff_lt_or_eq.mp hj with hj' | hj'
          · exact hopt j hj' mf' s' r' hg hs' hr' hL'
          · exact absurd ⟨mf', s', r', hj' ▸ hg, hs', hr', hL'⟩ hnotfeas

/-- The full `getAdaptiveModulation` loop preserves the selection invariant:
running it on the suffix `mods.drop k` carries the invariant from `k` to
`k + rest.length`. -/
theorem amLoop_inv (mods : List ModulationFormat) (band : Band) (L : Rat)
    (H : ∀ j mf s, mods.get? j = some mf →
      mf.getRequiredSlots band = .ok s → s < 2147483647) :
    ∀ (rest : List ModulationFormat) (k : Nat) (st : Int × Int × Rat),
      mods.drop k = rest → BitRate.amInv mods band L k st →
      BitRate.amInv mods band L (k + rest.length) (BitRate.amLoop band L rest k st) := by
  intro rest
  induction rest with
  | nil =>
    intro k st _ hinv
    exact hinv
  | cons mf rest ih =>
    intro k st hdrop hinv
    have hk : mods.get? k = some mf := by
      have h0 : (mods.drop k).get? 0 = some mf := by rw [hdrop]; rfl
      rw [List.get?_eq_getElem?, List.getElem?_drop, ← List.get?_eq_getElem?] at h0
      exact h0
    have hdrop' : mods.drop (k + 1) = rest := by
      have : mods.drop (k + 1) = (mods.drop k).drop 1 := by
        rw [List.drop_drop]
      rw [this, hdrop]
      rfl
    have hnext := ih (k + 1) (BitRate.amStep band L st k mf) hdrop'
      (amStep_inv mods band L H k st mf hk hinv)
    have harith : k + 1 + rest.length = k + (mf :: rest).length := by
      rw [List.length_cons]
      omega
    rw [harith] at hnext
    exact hnext

/-- C6 counterexample: a modulation requiring exactly `INT_MAX = 2147483647`
slots with reach 0 is feasible for the empty route on band C (its reach is
defined and covers the total length 0), yet `getAdaptiveModulation` returns
-1, because `INT_MAX` is also the initial value of `minSlots` and the
comparison `slots < minSlots` is strict. -/
theorem getAdaptiveModulation_intmax_counterexample :
    brIntMax.getAdaptiveModulationC [] = -1 ∧
    BitRate.feasIdx brIntMax.modulationFormats Band.C (routeLength []) 0 :=
  ⟨rfl, ⟨mfIntMax, 2147483647, 0, rfl, rfl, rfl, le_refl 0⟩⟩

/-- C6 (amended): provided every modulation's defined slot requirement for
the band is below `INT_MAX = 2147483647`, `get_adaptive_modulation` either
returns -1 and no modulation is feasible (defined reach covering the route's
total length), or returns the index of a feasible modulation that minimises
the required slots and, among those, maximises the reach; the default-band
variant uses band C. -/
theorem getAdaptiveModulation_selects_best (br : BitRate) (route : List Link)
    (band : Band)
    (H : ∀ j mf s, br.modulationFormats.get? j = some mf →
      mf.getRequiredSlots band = .ok s → s < 2147483647) :
    br.getAdaptiveModulationC route = br.getAdaptiveModulation route Band.C ∧
    ((br.getAdaptiveModulation route band = -1 ∧
        ∀ j, ¬ BitRate.feasIdx br.modulationFormats band (routeLength route) j)
      ∨ (∃ (i : Nat) (mf : ModulationFormat) (s : Int) (r : Rat),
          br.getAdaptiveModulation route band = (i : Int) ∧
          br.modulationFormats.get? i = some mf ∧
          mf.getRequiredSlots band = .ok s ∧ mf.getReach band = .ok r ∧
          routeLength route ≤ r ∧
          ∀ j mf' s' r', br.modulationFormats.get? j = some mf' →
            mf'.getRequiredSlots band = .ok s' → mf'.getReach band = .ok r' →
            routeLength route ≤ r' → s ≤ s' ∧ (s' = s → r' ≤ r))) := by
  refine ⟨rfl, ?_⟩
  have h0 : BitRate.amInv br.modulationFormats band (routeLength route) 0
      (-1, 2147483647, 0) :=
    Or.inl ⟨rfl, fun j hj => absurd hj (Nat.not_lt_zero j)⟩
  have hfin := amLoop_inv br.modulationFormats band (routeLength route) H
    br.modulationFormats 0 (-1, 2147483647, 0) rfl h0
  rw [Nat.zero_add] at hfin
  have hres : br.getAdaptiveModulation route band =
      (BitRate.amLoop band (routeLength route) br.modulationFormats 0
        (-1, 2147483647, 0)).1 := rfl
  rcases hfin with ⟨hst, hnone⟩ | ⟨i, _, mf, s, r, hgi, hsi, hri, hLi, hst, hopt⟩
  · left
    constructor
    · rw [hres, hst]
    · intro j hfeas
      by_cases hj : j < br.modulationFormats.length
      · exact hnone j hj hfeas
      · obtain ⟨mf', _, _, hg, _⟩ := hfeas
        rw [List.get?_eq_none.mpr (le_of_not_lt hj)] at hg
        exact Option.noConfusion hg
  · right
    refine ⟨i, mf, s, r, by rw [hres, hst], hgi, hsi, hri, hLi,
      fun j mf' s' r' hg hs' hr' hL' => ?_⟩
    obtain ⟨hj, -⟩ := List.get?_eq_some.mp hg
    exact hopt j hj mf' s' r' hg hs' hr' hL'

/-- Witness for the amended C6: the default 100 Gbps bitrate on a
single-link route of length 100 km on band C. -/
theorem getAdaptiveModulation_selects_best_witness :
    br100.getAdaptiveModulationC [link320] =
      br100.getAdaptiveModulation [link320] Band.C ∧
    ((br100.getAdaptiveModulation [link320] Band.C = -1 ∧
        ∀ j, ¬ BitRate.feasIdx br100.modulationFormats Band.C
          (routeLength [link320]) j)
      ∨ (∃ (i : Nat) (mf : ModulationFormat) (s : Int) (r : Rat),
          br100.getAdaptiveModulation [link320] Band.C = (i : Int) ∧
          br100.modulationFormats.get? i = some mf ∧
          mf.getRequiredSlots Band.C = .ok s ∧ mf.getReach Band.C = .ok r ∧
          routeLength [link320] ≤ r ∧
          ∀ j mf' s' r', br100.modulationFormats.get? j = some mf' →
            mf'.getRequiredSlots Band.C = .ok s' →
            mf'.getReach Band.C = .ok r' →
            routeLength [link320] ≤ r' → s ≤ s' ∧ (s' = s → r' ≤ r))) :=
  getAdaptiveModulation_selects_best br100 [link320] Band.C (by
    intro j mf s hj hs
    cases j with
    | zero =>
      have hmf : mfBPSK100 = mf := Option.some.inj hj
      rw [← hmf] at hs
      have h8 : (8 : Int) = s := Except.ok.inj hs
      rw [← h8]
      decide
    | succ j => exact Option.noConfusion hj)

/-! ### The end-to-end provisioning scenario (claim C1) -/

/-- C1 (code bug): in the single-link two-node scenario (100 Gbps demand,
320 C-band slots, BPSK with 8 slots and 5520 km reach, 100 km links), the
first period's `assign_connections` with the repository's `FirstFit_100G`
allocator commits **zero** connections instead of the claimed one: the
fiber's slots are value-initialised to `0`, but the allocator's availability
test `GET_SLOT(...) != -1` treats `0` as occupied, so its availability
vector marks all 320 slots used, no contiguous block is found, no
`Connection` is created, `demands[src][dst].allocated` stays `0` (not
`100.0`), every fiber stays inactive, and the printed utilization is `0`
(not `8/320`). -/
theorem firstfit_scenario_zero_connections :
    FirstFit.totalSlotsVec scenarioNet [1] 0 Band.C 0 320 =
      List.replicate 320 true ∧
    firstFit100GExec [br100] scenarioNet scenarioDemands =
      .ok (scenarioNet, scenarioDemands, []) ∧
    assignConnectionsFF scenarioNet scenarioDemands [br100] [] 1 =
      (none, scenarioNet, scenarioDemands, []) ∧
    ((scenarioDemands.getD 1 []).getD 0 demandNull).allocatedCapacity = 0 ∧
    (scenarioNet.fiberAt 0 0).isActive = false ∧
    usedSlotsPrintRow scenarioNet = 0 ∧
    utilizationPrintRow scenarioNet = 0 := by
  refine ⟨by decide, by decide, by decide, rfl, by decide, by decide, ?_⟩
  have h : usedSlotsPrintRow scenarioNet = 0 := by decide
  unfold utilizationPrintRow
  rw [if_neg (by decide : ¬ totalSlotsPrintRow scenarioNet = 0), h]
  norm_num

/-! ### K-shortest-path tie-breaking (claim C4) -/

/-- C4 counterexample: on `net4` the two shortest 0 → 1 paths have equal
total length 5, yet rank 0 of `paths[0][1]` goes to the route `[2]` although
`[0]` is lexicographically smaller, so equal-length ties are not resolved by
lexicographic comparison of the link-id sequences. -/
theorem yen_tie_not_lexicographic :
    (net4.yenKShortestPaths 0 1 2).map ShortestPathResult.totalLength =
      [some 5, some 5] ∧
    ((net4.setPaths 2).paths.getD 0 []).getD 1 [] = [[2], [0]] ∧
    routeLexLt [0] [2] = true := by
  decide

/-- C4 (amended): equal-length ties follow the algorithm's discovery order,
not the lexicographic order of the link-id sequences.  `connect` prepends
each new link to its source's adjacency segment, so among equal-length
parallel links Dijkstra relaxes the most recently connected one first and it
keeps the `previousLink` entry (later relaxations need a strictly smaller
distance): on `net4` node 0 scans link 2 before link 0 and
`paths[0][1] = [[2], [0]]`, and node 1 scans link 3 before link 1 and
`paths[1][0] = [[3], [1]]`, all four routes having equal total length 5. -/
theorem yen_tie_discovery_order :
    net4.linksOut = [2, 0, 3, 1] ∧ net4.nodesOut = [0, 2, 4] ∧
    (net4.setPaths 2).paths = [[[], [[2], [0]]], [[[3], [1]], []]] ∧
    (net4.yenKShortestPaths 0 1 2).map ShortestPathResult.totalLength =
      [some 5, some 5] ∧
    (net4.yenKShortestPaths 1 0 2).map ShortestPathResult.totalLength =
      [some 5, some 5] := by
  decide

end MONet
